import Mathlib

/-!
Governance proposal list panel (`src/qt/proposallist.cpp`).

A shallow embedding of the proposal list panel of the wallet GUI: the date
presets of `chooseStartDate` / `chooseEndDate`, the filter field handlers
(`changedAmount`, `changedPercentage`, ...), the settings persistence of the
date range widgets, the refresh countdown of `refreshProposals` and the voting
loop of `vote_click_handler`.

The Qt value classes the panel computes with (`QDate`, `QDateTime`, `QString`,
`QVariant`, `QSettings`, `QComboBox`, `QDateTimeEdit`) are embedded after the
Qt 5 sources, as far as the panel uses them.  Wallet services that live in
other translation units (key derivation, `ParseInt32`, the masternode manager,
vote signing, vote relay) are parameters of the embedding.
-/

namespace ProposalPanel

/-! ## QDate (qdatetime.cpp) -/

/-- C++ `a / b` on signed integers: the quotient is truncated towards zero. -/
def cdiv (a b : Int) : Int := Int.tdiv a b

/-- C++ `a % b` on signed integers: the remainder has the sign of `a`. -/
def cmod (a b : Int) : Int := Int.tmod a b

/-- `floordiv(a, b)` of qdatetime.cpp:
`(a - (a < 0 ? b - 1 : 0)) / b`. -/
def floordiv (a b : Int) : Int := cdiv (a - (if a < 0 then b - 1 else 0)) b

/-- `QDate`: a Julian day number in a `qint64`; dates outside
`minJd .. maxJd` are null. -/
structure QDate where
  jd : Int
  deriving DecidableEq, Repr

namespace QDate

/-- `QDate::nullJd()`: `std::numeric_limits<qint64>::min()`. -/
def nullJd : Int := -9223372036854775808

/-- `QDate::minJd()`. -/
def minJd : Int := -784350574879

/-- `QDate::maxJd()`. -/
def maxJd : Int := 784354017364

/-- `QDate::QDate()`: the null date. -/
def null : QDate := ⟨nullJd⟩

/-- `QDate::isValid() const`: `jd >= minJd() && jd <= maxJd()`. -/
def isValid (d : QDate) : Bool := decide (minJd ≤ d.jd) && decide (d.jd ≤ maxJd)

/-- `QDate::isNull() const`: `!isValid()`. -/
def isNull (d : QDate) : Bool := !d.isValid

/-- `QDate::fromJulianDay(jd_)`. -/
def fromJulianDay (j : Int) : QDate :=
  if minJd ≤ j ∧ j ≤ maxJd then ⟨j⟩ else null

/-- `julianDayFromDate(year, month, day)` of qdatetime.cpp. -/
def julianDayFromDate (year month day : Int) : Int :=
  let year := if year < 0 then year + 1 else year
  let a := floordiv (14 - month) 12
  let y := year + 4800 - a
  let m := month + 12 * a - 3
  day + floordiv (153 * m + 2) 5 + 365 * y + floordiv y 4 - floordiv y 100
    + floordiv y 400 - 32045

/-- `ParsedDate` of qdatetime.cpp. -/
structure ParsedDate where
  year : Int
  month : Int
  day : Int
  deriving DecidableEq, Repr

/-- `getDateFromJulianDay(julianDay)` of qdatetime.cpp. -/
def getDateFromJulianDay (julianDay : Int) : ParsedDate :=
  let a := julianDay + 32044
  let b := floordiv (4 * a + 3) 146097
  let c := a - floordiv (146097 * b) 4
  let d := floordiv (4 * c + 3) 1461
  let e := c - floordiv (1461 * d) 4
  let m := floordiv (5 * e + 2) 153
  let day := e - floordiv (153 * m + 2) 5 + 1
  let month := m + 3 - 12 * floordiv m 10
  let year := 100 * b + d - 4800 + floordiv m 10
  let year := if year ≤ 0 then year - 1 else year
  { year := year, month := month, day := day }

/-- `QDate::isLeapYear(y)`: there is no year 0, so -1, -5, -9 are leap. -/
def isLeapYear (y : Int) : Bool :=
  let y := if y < 1 then y + 1 else y
  (cmod y 4 == 0 && cmod y 100 != 0) || cmod y 400 == 0

/-- `monthDays[]` of qdatetime.cpp, indexed by the month 1..12. -/
def monthDays (month : Int) : Int :=
  match month with
  | 1 => 31 | 2 => 28 | 3 => 31 | 4 => 30 | 5 => 31 | 6 => 30
  | 7 => 31 | 8 => 31 | 9 => 30 | 10 => 31 | 11 => 30 | 12 => 31
  | _ => 0

/-- `QDate::isValid(year, month, day)`. -/
def isValidYMD (year month day : Int) : Bool :=
  if year = 0 then false
  else (decide (day > 0) && decide (month > 0) && decide (month ≤ 12)) &&
    (decide (day ≤ monthDays month) ||
      (decide (day = 29) && decide (month = 2) && isLeapYear year))

/-- `QDate::QDate(y, m, d)` (through `setDate`): the Julian day of a valid
date, the null date otherwise. -/
def ofYMD (y m d : Int) : QDate :=
  if isValidYMD y m d then ⟨julianDayFromDate y m d⟩ else null

/-- `QDate::year() const`. -/
def year (d : QDate) : Int :=
  if d.isNull then 0 else (getDateFromJulianDay d.jd).year

/-- `QDate::month() const`. -/
def month (d : QDate) : Int :=
  if d.isNull then 0 else (getDateFromJulianDay d.jd).month

/-- `QDate::day() const`. -/
def day (d : QDate) : Int :=
  if d.isNull then 0 else (getDateFromJulianDay d.jd).day

/-- `QDate::dayOfWeek() const`: 1 = Monday .. 7 = Sunday, 0 for a null date. -/
def dayOfWeek (d : QDate) : Int :=
  if d.isNull then 0
  else if d.jd ≥ 0 then cmod d.jd 7 + 1
  else cmod (d.jd + 1) 7 + 7

/-- `QDate::daysInMonth() const`. -/
def daysInMonth (d : QDate) : Int :=
  if d.isNull then 0
  else
    let pd := getDateFromJulianDay d.jd
    if pd.month = 2 ∧ isLeapYear pd.year then 29 else monthDays pd.month

/-- `QDate::addDays(ndays) const`. -/
def addDays (d : QDate) (ndays : Int) : QDate :=
  if d.isNull then null else fromJulianDay (d.jd + ndays)

/-- `fixedDate(y, m, d)` of qdatetime.cpp: the day clipped to the month. -/
def fixedDate (y m d : Int) : QDate :=
  let result := ofYMD y m 1
  ofYMD y m (min d result.daysInMonth)

/-- The `while (nmonths != 0)` loop of `QDate::addMonths` on `(y, m, nmonths)`.
Each turn either ends the loop or moves `nmonths` twelve closer to zero, so
`nmonths.natAbs + 2` turns are enough. -/
def addMonthsLoop : Nat → Int → Int → Int → Int × Int
  | 0, y, m, _ => (y, m)
  | fuel + 1, y, m, nmonths =>
    if nmonths = 0 then (y, m)
    else if nmonths < 0 ∧ nmonths + 12 ≤ 0 then
      addMonthsLoop fuel (y - 1) m (nmonths + 12)
    else if nmonths < 0 then
      let m := m + nmonths
      if m ≤ 0 then addMonthsLoop fuel (y - 1) (m + 12) 0
      else addMonthsLoop fuel y m 0
    else if nmonths - 12 ≥ 0 then
      addMonthsLoop fuel (y + 1) m (nmonths - 12)
    else if m = 12 then
      addMonthsLoop fuel (y + 1) 0 nmonths
    else
      let m := m + nmonths
      if m > 12 then addMonthsLoop fuel (y + 1) (m - 12) 0
      else addMonthsLoop fuel y m 0

/-- `QDate::addMonths(nmonths) const`. -/
def addMonths (d : QDate) (nmonths : Int) : QDate :=
  if !d.isValid then null
  else if nmonths = 0 then d
  else
    let pd := getDateFromJulianDay d.jd
    let old_y := pd.year
    let increasing := decide (nmonths > 0)
    let (y, m) := addMonthsLoop (nmonths.natAbs + 2) pd.year pd.month nmonths
    -- was there a sign change?
    let y := if (old_y > 0 ∧ y ≤ 0) ∨ (old_y < 0 ∧ y ≥ 0)
      then (if increasing then y + 1 else y - 1) else y
    fixedDate y m pd.day

end QDate

/-! ## QDateTime, QString, QVariant, QSettings -/

/-- `QDateTime` in local time: a date and the milliseconds since midnight.
Two local datetimes compare by date first, then by time of day. -/
structure QDateTime where
  date : QDate
  msecs : Int
  deriving DecidableEq, Repr

namespace QDateTime

/-- `QDateTime::QDateTime(const QDate &)`: the given date at 00:00:00.000. -/
def ofDate (d : QDate) : QDateTime := { date := d, msecs := 0 }

/-- `operator<=` on local datetimes. -/
def le (a b : QDateTime) : Prop :=
  a.date.jd < b.date.jd ∨ (a.date.jd = b.date.jd ∧ a.msecs ≤ b.msecs)

/-- `operator<` on local datetimes. -/
def lt (a b : QDateTime) : Prop :=
  a.date.jd < b.date.jd ∨ (a.date.jd = b.date.jd ∧ a.msecs < b.msecs)

instance (a b : QDateTime) : Decidable (le a b) := by unfold le; infer_instance

instance (a b : QDateTime) : Decidable (lt a b) := by unfold lt; infer_instance

end QDateTime

/-- `INT_MAX`. -/
def INT_MAX : Int := 2147483647

/-- `INT_MIN`. -/
def INT_MIN : Int := -2147483648

namespace QString

/-- `QChar::isSpace()` on the characters a line edit can hold: space, the
control characters 9..13, and the no-break space. -/
def isSpace (c : Char) : Bool :=
  c.toNat = 32 || (decide (9 ≤ c.toNat) && decide (c.toNat ≤ 13)) || c.toNat = 160

/-- Value of an ASCII decimal digit. -/
def digitValue (c : Char) : Option Nat :=
  if 48 ≤ c.toNat ∧ c.toNat ≤ 57 then some (c.toNat - 48) else none

/-- Base-10 value of a run of digits, most significant first, on top of the
value `acc` read so far; `none` when a character is not a digit. -/
def digitsValue : List Char → Nat → Option Nat
  | [], acc => some acc
  | c :: cs, acc =>
    match digitValue c with
    | some v => digitsValue cs (10 * acc + v)
    | none => none

/-- Drops the white space at both ends, as the number parser does before it
reads a number. -/
def trimmed (cs : List Char) : List Char :=
  ((cs.dropWhile isSpace).reverse.dropWhile isSpace).reverse

/-- The integer a text denotes in base 10: optional sign, then at least one
digit, white space allowed around it; `none` for any other text. -/
def parseInteger (s : String) : Option Int :=
  match trimmed s.toList with
  | [] => none
  | c :: cs =>
    if c = '-' then
      (if cs.isEmpty then none else (digitsValue cs 0).map (fun n => -(n : Int)))
    else if c = '+' then
      (if cs.isEmpty then none else (digitsValue cs 0).map (fun n => (n : Int)))
    else (digitsValue (c :: cs) 0).map (fun n => (n : Int))

/-- `QString::toInt()` (base 10, no `ok` pointer): the value of the text when
it is an integer that fits an `int`, `0` when the conversion fails. -/
def toInt (s : String) : Int :=
  match parseInteger s with
  | some v => if INT_MIN ≤ v ∧ v ≤ INT_MAX then v else 0
  | none => 0

/-- `QString::number(n)` for an integer: its decimal text. -/
def number (n : Int) : String := toString n

end QString

/-- `QVariant`, for the two kinds of value the panel stores. -/
inductive QVariant where
  | invalid
  | int (n : Int)
  | string (s : String)
  deriving DecidableEq, Repr

namespace QVariant

/-- `QVariant::toInt()`: `0` for an invalid variant, `QString::toInt` for a
string. -/
def toInt : QVariant → Int
  | invalid => 0
  | int n => n
  | string s => QString.toInt s

/-- `QVariant::toString()`. -/
def toQString : QVariant → String
  | invalid => ""
  | int n => QString.number n
  | string s => s

end QVariant

/-- `QSettings`: the application's key-value store. -/
def QSettings : Type := String → Option QVariant

namespace QSettings

/-- A settings store with no key. -/
def empty : QSettings := fun _ => none

/-- `QSettings::value(key)`: an invalid variant when the key is absent. -/
def value (s : QSettings) (key : String) : QVariant :=
  match s key with
  | some v => v
  | none => QVariant.invalid

/-- `QSettings::value(key, defaultValue)`. -/
def valueOr (s : QSettings) (key : String) (defaultValue : QVariant) : QVariant :=
  match s key with
  | some v => v
  | none => defaultValue

/-- `QSettings::setValue(key, value)`. -/
def setValue (s : QSettings) (key : String) (v : QVariant) : QSettings :=
  fun k => if k = key then some v else s k

end QSettings

/-- Decimal text of an integer, as it is typed into a filter field: a minus
sign for a negative number, then the digits without leading zeros. -/
def decimalText (n : Int) : String :=
  String.mk (if n < 0 then '-' :: Nat.toDigits 10 n.natAbs else Nat.toDigits 10 n.natAbs)

/-! ## Date persistence format `"yyyy-MM-dd"` -/

/-- Decimal text of `n`, zero-padded on the left to at least `width` digits. -/
def zeroPadded (width : Nat) (n : Nat) : String :=
  let ds := Nat.toDigits 10 n
  String.mk (List.replicate (width - ds.length) '0' ++ ds)

/-- `QDate::toString(PERSISTENCE_DATE_FORMAT)` with `"yyyy-MM-dd"`: the empty
string for a null date; the year on four digits (with a leading minus sign
before year 1), the month and the day on two. -/
def QDate.toPersistenceString (d : QDate) : String :=
  if d.isNull then ""
  else
    let y := d.year
    (if y < 0 then "-" else "") ++ zeroPadded 4 y.natAbs ++ "-"
      ++ zeroPadded 2 d.month.natAbs ++ "-" ++ zeroPadded 2 d.day.natAbs

/-- `QDate::fromString(text, PERSISTENCE_DATE_FORMAT)` with `"yyyy-MM-dd"`:
exactly four digits, a dash, two digits, a dash, two digits; the null date for
any other text or when the fields are not a date. -/
def QDate.fromPersistenceString (s : String) : QDate :=
  match s.toList with
  | [y1, y2, y3, y4, s1, m1, m2, s2, d1, d2] =>
    if s1 = '-' ∧ s2 = '-' then
      match QString.digitsValue [y1, y2, y3, y4] 0, QString.digitsValue [m1, m2] 0,
        QString.digitsValue [d1, d2] 0 with
      | some y, some m, some d => QDate.ofYMD y m d
      | _, _, _ => QDate.null
    else QDate.null
  | _ => QDate.null

/-! ## Widgets and declarations of the panel -/

/-- `enum DateEnum` of proposallist.h, in the order the constructor adds the
combo box items. -/
inductive DateEnum where
  | All | Today | ThisWeek | ThisMonth | LastMonth | ThisYear | Range
  deriving DecidableEq, Repr

/-- Integer value of an enumerator (declaration order, from 0). -/
def DateEnum.toInt : DateEnum → Int
  | All => 0 | Today => 1 | ThisWeek => 2 | ThisMonth => 3
  | LastMonth => 4 | ThisYear => 5 | Range => 6

/-- The enumerator a `case` label of the `switch` matches, if any. -/
def DateEnum.ofInt (n : Int) : Option DateEnum :=
  match n with
  | 0 => some All | 1 => some Today | 2 => some ThisWeek | 3 => some ThisMonth
  | 4 => some LastMonth | 5 => some ThisYear | 6 => some Range
  | _ => none

/-- The item data of the seven entries that lines 70-76 (start) and 81-87
(end) add to the date combo boxes. -/
def dateItems : List DateEnum :=
  [.All, .Today, .ThisWeek, .ThisMonth, .LastMonth, .ThisYear, .Range]

/-- A date `QComboBox` of the panel: its items are always `dateItems`, so
only the current index is state. -/
structure QComboBox where
  currentIndex : Int
  deriving DecidableEq, Repr

namespace QComboBox

/-- `QComboBox::itemData(index)`: an invalid variant outside the items. -/
def itemData (_c : QComboBox) (idx : Int) : QVariant :=
  if idx < 0 then QVariant.invalid
  else
    match dateItems.get? idx.toNat with
    | some e => QVariant.int e.toInt
    | none => QVariant.invalid

/-- `QComboBox::setCurrentIndex(index)`: an index outside the items clears
the current item (index -1). -/
def setCurrentIndex (_c : QComboBox) (idx : Int) : QComboBox :=
  if 0 ≤ idx ∧ idx < dateItems.length then { currentIndex := idx }
  else { currentIndex := -1 }

end QComboBox

/-- `QDateTimeEdit`, reduced to its date and its date range. -/
structure QDateTimeEdit where
  date : QDate
  minimumDate : QDate
  maximumDate : QDate
  deriving DecidableEq, Repr

namespace QDateTimeEdit

/-- `new QDateTimeEdit(this)`: 1 January 2000, with the default range
14 September 1752 .. 31 December 9999. -/
def create : QDateTimeEdit :=
  { date := QDate.ofYMD 2000 1 1
    minimumDate := QDate.ofYMD 1752 9 14
    maximumDate := QDate.ofYMD 9999 12 31 }

/-- `QDateTimeEdit::setDate(date)`: ignored for an invalid date, otherwise the
date bounded to the range of the editor. -/
def setDate (e : QDateTimeEdit) (d : QDate) : QDateTimeEdit :=
  if d.isValid then
    if d.jd < e.minimumDate.jd then { e with date := e.minimumDate }
    else if e.maximumDate.jd < d.jd then { e with date := e.maximumDate }
    else { e with date := d }
  else e

end QDateTimeEdit

/-- `ProposalFilterProxy`, reduced to the filter bounds the panel sets. -/
structure ProposalFilterProxy where
  startDate : QDateTime
  endDate : QDateTime
  proposalName : String
  nMinAmount : Int
  nMinPercentage : Int
  nMinYesVotes : Int
  nMinNoVotes : Int
  nMinAbsoluteYesVotes : Int
  deriving DecidableEq, Repr

/-- Declarations the panel takes from headers outside this file:
`ProposalFilterProxy::MIN_DATE`, `ProposalFilterProxy::MAX_DATE` and
`PROPOSALLIST_UPDATE_SECONDS`. -/
structure Decls where
  MIN_DATE : QDateTime
  MAX_DATE : QDateTime
  PROPOSALLIST_UPDATE_SECONDS : Int

/-- A selected row of the proposal table: the data under `ProposalRole` and
`ProposalHashRole`. -/
structure ProposalRow where
  name : String
  hash : String
  deriving DecidableEq, Repr

/-- The state of a `ProposalList` widget together with the settings store it
reads and writes. -/
structure ProposalList where
  settings : QSettings
  proposalProxyModel : Option ProposalFilterProxy
  startDateWidget : QComboBox
  endDateWidget : QComboBox
  startDateRangeWidgetVisible : Bool
  endDateRangeWidgetVisible : Bool
  proposalStartDate : QDateTimeEdit
  proposalEndDate : QDateTimeEdit
  nLastUpdate : Int
  secondsLabel : String
  /-- number of `proposalTableModel->refreshProposals()` calls so far -/
  tableModelRefreshes : Nat
  /-- `proposalList->selectionModel()` is not null -/
  hasSelectionModel : Bool
  /-- `proposalList->selectionModel()->selectedRows()` -/
  selectedRows : List ProposalRow

/-- `PERSISTENCE_DATE_FORMAT` is `"yyyy-MM-dd"`; a date in that format as a
settings value. -/
def persistedDate (d : QDate) : QVariant := QVariant.string d.toPersistenceString

namespace ProposalList

/-! ### Date range widgets (lines 529-609) -/

/-- `ProposalList::createStartDateRangeWidget()`; `current` is
`QDate::currentDate()`. -/
def createStartDateRangeWidget (self : ProposalList) (current : QDate) : ProposalList :=
  let defaultDate := current.toPersistenceString
  let proposalStartDate := QDateTimeEdit.create
  let proposalStartDate := proposalStartDate.setDate
    (QDate.fromPersistenceString
      (self.settings.valueOr "proposalStartDate" (QVariant.string defaultDate)).toQString)
  { self with proposalStartDate := proposalStartDate, startDateRangeWidgetVisible := false }

/-- `ProposalList::createEndDateRangeWidget()`; `current` is
`QDate::currentDate()`. -/
def createEndDateRangeWidget (self : ProposalList) (current : QDate) : ProposalList :=
  let defaultDate := current.toPersistenceString
  let proposalEndDate := QDateTimeEdit.create
  let proposalEndDate := proposalEndDate.setDate
    (QDate.fromPersistenceString
      (self.settings.valueOr "proposlEndDate" (QVariant.string defaultDate)).toQString)
  { self with proposalEndDate := proposalEndDate, endDateRangeWidgetVisible := false }

/-- `ProposalList::startDateRangeChanged()`. -/
def startDateRangeChanged (self : ProposalList) : ProposalList :=
  match self.proposalProxyModel with
  | none => self
  | some proxy =>
    { self with
      settings := self.settings.setValue "proposalStartDate"
        (persistedDate self.proposalStartDate.date)
      proposalProxyModel :=
        some { proxy with startDate := QDateTime.ofDate self.proposalStartDate.date } }

/-- `ProposalList::endDateRangeChanged()`. -/
def endDateRangeChanged (self : ProposalList) : ProposalList :=
  match self.proposalProxyModel with
  | none => self
  | some proxy =>
    { self with
      settings := self.settings.setValue "proposalEndDate"
        (persistedDate self.proposalEndDate.date)
      proposalProxyModel :=
        some { proxy with endDate := QDateTime.ofDate self.proposalEndDate.date } }

/-- `proposalProxyModel->setProposalStart(date)`. -/
def setProposalStart (self : ProposalList) (date : QDateTime) : ProposalList :=
  { self with
    proposalProxyModel :=
      self.proposalProxyModel.map (fun proxy => { proxy with startDate := date }) }

/-- `proposalProxyModel->setProposalEnd(date)`. -/
def setProposalEnd (self : ProposalList) (date : QDateTime) : ProposalList :=
  { self with
    proposalProxyModel :=
      self.proposalProxyModel.map (fun proxy => { proxy with endDate := date }) }

/-! ### Date presets (lines 263-355) -/

/-- `ProposalList::chooseStartDate(idx)`; `current` is `QDate::currentDate()`. -/
def chooseStartDate (K : Decls) (self : ProposalList) (current : QDate) (idx : Int) :
    ProposalList :=
  match self.proposalProxyModel with
  | none => self
  | some _ =>
    let self := { self with startDateRangeWidgetVisible := false }
    let mode := DateEnum.ofInt (self.startDateWidget.itemData idx).toInt
    let self :=
      match mode with
      | some .All => self.setProposalStart K.MIN_DATE
      | some .Today => self.setProposalStart (QDateTime.ofDate current)
      | some .ThisWeek =>
        let startOfWeek := current.addDays (-(current.dayOfWeek - 1))
        self.setProposalStart (QDateTime.ofDate startOfWeek)
      | some .ThisMonth =>
        self.setProposalStart (QDateTime.ofDate (QDate.ofYMD current.year current.month 1))
      | some .LastMonth =>
        self.setProposalStart
          (QDateTime.ofDate ((QDate.ofYMD current.year current.month 1).addMonths (-1)))
      | some .ThisYear =>
        self.setProposalStart (QDateTime.ofDate (QDate.ofYMD current.year 1 1))
      | some .Range =>
        startDateRangeChanged { self with startDateRangeWidgetVisible := true }
      | none => self
    let self := { self with
      settings := self.settings.setValue "proposalStartDateIndex" (QVariant.int idx) }
    if (self.startDateWidget.itemData idx).toInt = DateEnum.Range.toInt then
      { self with
        settings := self.settings.setValue "proposalStartDate"
          (persistedDate self.proposalStartDate.date) }
    else self

/-- `ProposalList::chooseEndDate(idx)`; `current` is `QDate::currentDate()`. -/
def chooseEndDate (K : Decls) (self : ProposalList) (current : QDate) (idx : Int) :
    ProposalList :=
  match self.proposalProxyModel with
  | none => self
  | some _ =>
    let self := { self with endDateRangeWidgetVisible := false }
    let mode := DateEnum.ofInt (self.endDateWidget.itemData idx).toInt
    let self :=
      match mode with
      | some .All => self.setProposalEnd K.MAX_DATE
      | some .Today => self.setProposalEnd (QDateTime.ofDate current)
      | some .ThisWeek =>
        let startOfWeek := current.addDays (-(current.dayOfWeek - 1))
        self.setProposalEnd (QDateTime.ofDate startOfWeek)
      | some .ThisMonth =>
        self.setProposalEnd (QDateTime.ofDate (QDate.ofYMD current.year current.month 1))
      | some .LastMonth =>
        self.setProposalEnd
          (QDateTime.ofDate ((QDate.ofYMD current.year current.month 1).addMonths (-1)))
      | some .ThisYear =>
        self.setProposalEnd (QDateTime.ofDate (QDate.ofYMD current.year 1 1))
      | some .Range =>
        endDateRangeChanged { self with endDateRangeWidgetVisible := true }
      | none => self
    let self := { self with
      settings := self.settings.setValue "proposalEndDateIndex" (QVariant.int idx) }
    if (self.endDateWidget.itemData idx).toInt = DateEnum.Range.toInt then
      { self with
        settings := self.settings.setValue "proposalEndDate"
          (persistedDate self.proposalEndDate.date) }
    else self

/-! ### Filter fields (lines 358-408) -/

/-- `ProposalList::changedAmount(minAmount)`. -/
def changedAmount (self : ProposalList) (minAmount : String) : ProposalList :=
  match self.proposalProxyModel with
  | none => self
  | some proxy =>
    { self with
      proposalProxyModel :=
        some { proxy with nMinAmount := QString.toInt minAmount } }

/-- `ProposalList::changedPercentage(minPercentage)`. -/
def changedPercentage (self : ProposalList) (minPercentage : String) : ProposalList :=
  match self.proposalProxyModel with
  | none => self
  | some proxy =>
    let value := if minPercentage = "" then -100 else QString.toInt minPercentage
    { self with proposalProxyModel := some { proxy with nMinPercentage := value } }

/-- `ProposalList::changedProposal(proposal)`. -/
def changedProposal (self : ProposalList) (proposal : String) : ProposalList :=
  match self.proposalProxyModel with
  | none => self
  | some proxy =>
    { self with proposalProxyModel := some { proxy with proposalName := proposal } }

/-- `ProposalList::changedYesVotes(minYesVotes)`. -/
def changedYesVotes (self : ProposalList) (minYesVotes : String) : ProposalList :=
  match self.proposalProxyModel with
  | none => self
  | some proxy =>
    { self with
      proposalProxyModel :=
        some { proxy with nMinYesVotes := QString.toInt minYesVotes } }

/-- `ProposalList::changedNoVotes(minNoVotes)`. -/
def changedNoVotes (self : ProposalList) (minNoVotes : String) : ProposalList :=
  match self.proposalProxyModel with
  | none => self
  | some proxy =>
    { self with
      proposalProxyModel :=
        some { proxy with nMinNoVotes := QString.toInt minNoVotes } }

/-- `ProposalList::changedAbsoluteYesVotes(minAbsoluteYesVotes)`. -/
def changedAbsoluteYesVotes (self : ProposalList) (minAbsoluteYesVotes : String) :
    ProposalList :=
  match self.proposalProxyModel with
  | none => self
  | some proxy =>
    let value :=
      if minAbsoluteYesVotes = "" then INT_MIN else QString.toInt minAbsoluteYesVotes
    { self with proposalProxyModel := some { proxy with nMinAbsoluteYesVotes := value } }

end ProposalList

/-! ### Refresh countdown (lines 249-261) -/

/-- Two's complement value of an `int64_t` after an arithmetic step. -/
def wrapInt64 (x : Int) : Int := (x + 9223372036854775808) % 18446744073709551616 - 9223372036854775808

namespace ProposalList

/-- `ProposalList::refreshProposals(force)`; `t1` and `t2` are what the first
(line 250) and the second (line 256) call of `GetTime()` return. -/
def refreshProposals (K : Decls) (self : ProposalList) (force : Bool) (t1 t2 : Int) :
    ProposalList :=
  let secondsRemaining :=
    wrapInt64 (wrapInt64 (self.nLastUpdate - t1) + K.PROPOSALLIST_UPDATE_SECONDS)
  let secOrMinutes := if cdiv secondsRemaining 60 > 1 then "minute(s)" else "second(s)"
  let self := { self with
    secondsLabel := "List will be updated in "
      ++ (if secondsRemaining > 60 then QString.number (cdiv secondsRemaining 60)
          else QString.number secondsRemaining)
      ++ " " ++ secOrMinutes }
  if secondsRemaining > 0 ∧ force = false then self
  else
    { self with
      nLastUpdate := t2
      tableModelRefreshes := self.tableModelRefreshes + 1
      secondsLabel := "List will be updated in 0 second(s)" }

/-! ### Constructor (lines 41-243) -/

/-- `ProposalList::ProposalList(platformStyle, parent)`: `settings` is the
settings store found at start-up, `proxy` the freshly made
`ProposalFilterProxy`, `current` is `QDate::currentDate()` and `now` is
`GetTime()`. -/
def create (K : Decls) (settings : QSettings) (proxy : ProposalFilterProxy)
    (current : QDate) (now : Int) : ProposalList :=
  let self : ProposalList :=
    { settings := settings
      proposalProxyModel := none
      startDateWidget := { currentIndex := 0 }
      endDateWidget := { currentIndex := 0 }
      startDateRangeWidgetVisible := false
      endDateRangeWidgetVisible := false
      proposalStartDate := QDateTimeEdit.create
      proposalEndDate := QDateTimeEdit.create
      nLastUpdate := 0
      secondsLabel := ""
      tableModelRefreshes := 0
      hasSelectionModel := false
      selectedRows := [] }
  -- lines 77 and 88
  let self := { self with
    startDateWidget :=
      self.startDateWidget.setCurrentIndex (self.settings.value "proposalStartDateIndex").toInt }
  let self := { self with
    endDateWidget :=
      self.endDateWidget.setCurrentIndex (self.settings.value "proposalEndDateIndex").toInt }
  -- lines 129 and 130
  let self := self.createStartDateRangeWidget current
  let self := self.createEndDateRangeWidget current
  -- lines 204 and 213
  let self := { self with proposalProxyModel := some proxy, hasSelectionModel := true }
  -- lines 233 and 234
  let self := chooseStartDate K self current (self.settings.value "proposalStartDate").toInt
  let self := chooseEndDate K self current (self.settings.value "proposalEndDate").toInt
  -- line 236
  { self with nLastUpdate := now }

end ProposalList

/-! ### Voting (lines 436-517) -/

/-- `CMasternodeConfig::CMasternodeEntry`. -/
structure CMasternodeEntry where
  aliasName : String
  ip : String
  privKey : String
  txHash : String
  outputIndex : String
  deriving DecidableEq, Repr

/-- `COutPoint`: a transaction hash and an output index. -/
structure COutPoint where
  hash : Nat
  n : Int
  deriving DecidableEq, Repr

/-- `CMasternode`, reduced to the field the handler reads. -/
structure CMasternode where
  outpoint : COutPoint
  deriving DecidableEq, Repr

/-- `CGovernanceVote`. -/
structure CGovernanceVote where
  masternodeOutpoint : COutPoint
  nParentHash : Nat
  nVoteSignal : Int
  nVoteOutcome : Int
  vchSig : List Nat
  deriving DecidableEq, Repr

/-- Wallet services the handler calls, implemented outside this file.  `W` is
the state of the wallet backend (masternode list, governance store, network). -/
structure Services (W : Type) where
  /-- `CMessageSigner::GetKeysFromSecret(strSecret, keyRet, pubkeyRet)` -/
  GetKeysFromSecret : String → Option (Nat × Nat)
  /-- `uint256::SetHex(str)` -/
  SetHex : String → Nat
  /-- `ParseInt32(str, &out)` -/
  ParseInt32 : String → Option Int
  /-- `CGovernanceVoting::ConvertVoteSignal(str)` -/
  ConvertVoteSignal : String → Int
  /-- `CGovernanceVoting::ConvertVoteOutcome(str)` -/
  ConvertVoteOutcome : String → Int
  /-- `mnodeman.Get(outpoint, mn)` -/
  mnodemanGet : W → COutPoint → Option CMasternode
  /-- `vote.Sign(key, pubKey)`: the signed vote on success -/
  Sign : W → CGovernanceVote → Nat → Nat → Option CGovernanceVote
  /-- `governance.ProcessVoteAndRelay(vote, exception, connman)` -/
  ProcessVoteAndRelay : W → CGovernanceVote → Bool × W

/-- `QMessageBox::StandardButton`, the values a question box can return. -/
inductive StandardButton where
  | Yes | No | Ok | Cancel | Close | NoButton
  deriving DecidableEq, Repr

/-- What the handler does that is visible outside the widget, in order. -/
inductive Effect where
  /-- `QMessageBox::question(... "Confirm vote" ...)` -/
  | question (voteString proposalName : String)
  /-- a call of `vote.Sign` and whether it succeeded -/
  | sign (vote : CGovernanceVote) (ok : Bool)
  /-- a call of `governance.ProcessVoteAndRelay` and what it returned -/
  | processVoteAndRelay (vote : CGovernanceVote) (ok : Bool)
  /-- `QMessageBox::information(... "Voting" ...)` with the two counters -/
  | information (voteString : String) (nSuccessful nFailed : Int) (proposalName : String)
  deriving DecidableEq, Repr

/-- The variables the `for` loop of `vote_click_handler` updates. -/
structure VoteLoop (W : Type) where
  world : W
  nSuccessful : Int
  nFailed : Int
  effects : List Effect

/-- One turn of the loop `for (const auto& mne : masternodeConfig.getEntries())`
(lines 463-511). -/
def voteLoopBody {W : Type} (S : Services W) (hash : Nat) (eVoteSignal eVoteOutcome : Int)
    (st : VoteLoop W) (mne : CMasternodeEntry) : VoteLoop W :=
  match S.GetKeysFromSecret mne.privKey with
  | none => { st with nFailed := st.nFailed + 1 }
  | some (keyMasternode, pubKeyMasternode) =>
    let nTxHash := S.SetHex mne.txHash
    match S.ParseInt32 mne.outputIndex with
    | none => st
    | some nOutputIndex =>
      let outpoint : COutPoint := { hash := nTxHash, n := nOutputIndex }
      match S.mnodemanGet st.world outpoint with
      | none => { st with nFailed := st.nFailed + 1 }
      | some mn =>
        let vote : CGovernanceVote :=
          { masternodeOutpoint := mn.outpoint, nParentHash := hash
            nVoteSignal := eVoteSignal, nVoteOutcome := eVoteOutcome, vchSig := [] }
        match S.Sign st.world vote keyMasternode pubKeyMasternode with
        | none =>
          { st with nFailed := st.nFailed + 1
                    effects := st.effects ++ [Effect.sign vote false] }
        | some signedVote =>
          let r := S.ProcessVoteAndRelay st.world signedVote
          if r.1 then
            { world := r.2, nSuccessful := st.nSuccessful + 1, nFailed := st.nFailed
              effects := st.effects
                ++ [Effect.sign vote true, Effect.processVoteAndRelay signedVote true] }
          else
            { world := r.2, nSuccessful := st.nSuccessful, nFailed := st.nFailed + 1
              effects := st.effects
                ++ [Effect.sign vote true, Effect.processVoteAndRelay signedVote false] }

/-- Outcome of `vote_click_handler`: the widget, the backend and the effects. -/
structure VoteResult (W : Type) where
  panel : ProposalList
  world : W
  effects : List Effect

/-- `ProposalList::vote_click_handler(voteString)`.  `entries` is
`masternodeConfig.getEntries()`, `answer` is the button the confirmation box
returns, `t1` and `t2` are the two clock readings of the final
`refreshProposals(true)`. -/
def ProposalList.vote_click_handler {W : Type} (K : Decls) (S : Services W)
    (self : ProposalList) (w : W) (entries : List CMasternodeEntry) (voteString : String)
    (answer : StandardButton) (t1 t2 : Int) : VoteResult W :=
  if self.hasSelectionModel = false then { panel := self, world := w, effects := [] }
  else
    match self.selectedRows with
    | [] => { panel := self, world := w, effects := [] }
    | row :: _ =>
      let proposalName := row.name
      let asked := [Effect.question voteString proposalName]
      if answer ≠ StandardButton.Yes then { panel := self, world := w, effects := asked }
      else
        let hash := S.SetHex row.hash
        let eVoteSignal := S.ConvertVoteSignal "funding"
        let eVoteOutcome := S.ConvertVoteOutcome voteString
        let st := entries.foldl (voteLoopBody S hash eVoteSignal eVoteOutcome)
          { world := w, nSuccessful := 0, nFailed := 0, effects := asked }
        { panel := self.refreshProposals K true t1 t2
          world := st.world
          effects := st.effects
            ++ [Effect.information voteString st.nSuccessful st.nFailed proposalName] }

/-! ### How the handler's effects are read -/

/-- The two counters `(nSuccessful, nFailed)` the result dialog shows, when the
handler showed one. -/
def reportedCounters : List Effect → Option (Int × Int)
  | [] => none
  | Effect.information _ nSuccessful nFailed _ :: _ => some (nSuccessful, nFailed)
  | _ :: rest => reportedCounters rest

/-- Whether an effect is a call of `governance.ProcessVoteAndRelay`. -/
def Effect.isRelay : Effect → Bool
  | Effect.processVoteAndRelay _ _ => true
  | _ => false

/-- Whether an effect is a call of `vote.Sign`. -/
def Effect.isSign : Effect → Bool
  | Effect.sign _ _ => true
  | _ => false

/-- Whether an effect is the confirmation box. -/
def Effect.isQuestion : Effect → Bool
  | Effect.question _ _ => true
  | _ => false

/-- Whether an effect is the result dialog. -/
def Effect.isInformation : Effect → Bool
  | Effect.information _ _ _ _ => true
  | _ => false

/-- Number of `ProcessVoteAndRelay` calls among the effects. -/
def relayCalls (effects : List Effect) : Nat := effects.countP Effect.isRelay

/-- How far the attempt to vote with one masternode entry gets. -/
inductive EntryOutcome where
  | keyFailed
  | indexUnparsable
  | masternodeMissing
  | signFailed
  | relayFailed
  | voted
  deriving DecidableEq, Repr

/-- The entry passed key derivation, index parsing, masternode lookup and
signing, so that its vote was handed to `ProcessVoteAndRelay`. -/
def EntryOutcome.reachedRelay : EntryOutcome → Bool
  | relayFailed => true
  | voted => true
  | _ => false

/-- Specification of one attempt: the step at which voting with `mne` stops when
the backend is in state `w`, and the backend state afterwards. -/
def entryAttempt {W : Type} (S : Services W) (hash : Nat) (eVoteSignal eVoteOutcome : Int)
    (w : W) (mne : CMasternodeEntry) : EntryOutcome × W :=
  match S.GetKeysFromSecret mne.privKey with
  | none => (EntryOutcome.keyFailed, w)
  | some keys =>
    match S.ParseInt32 mne.outputIndex with
    | none => (EntryOutcome.indexUnparsable, w)
    | some nOutputIndex =>
      match S.mnodemanGet w { hash := S.SetHex mne.txHash, n := nOutputIndex } with
      | none => (EntryOutcome.masternodeMissing, w)
      | some mn =>
        match S.Sign w
            { masternodeOutpoint := mn.outpoint, nParentHash := hash
              nVoteSignal := eVoteSignal, nVoteOutcome := eVoteOutcome, vchSig := [] }
            keys.1 keys.2 with
        | none => (EntryOutcome.signFailed, w)
        | some signedVote =>
          if (S.ProcessVoteAndRelay w signedVote).1 then
            (EntryOutcome.voted, (S.ProcessVoteAndRelay w signedVote).2)
          else (EntryOutcome.relayFailed, (S.ProcessVoteAndRelay w signedVote).2)

/-- Specification of a voting round: each entry is attempted once, in order,
each attempt starting from the backend state the previous one left. -/
def entryOutcomes {W : Type} (S : Services W) (hash : Nat) (eVoteSignal eVoteOutcome : Int) :
    W → List CMasternodeEntry → List EntryOutcome
  | _, [] => []
  | w, mne :: rest =>
    (entryAttempt S hash eVoteSignal eVoteOutcome w mne).1 ::
      entryOutcomes S hash eVoteSignal eVoteOutcome
        (entryAttempt S hash eVoteSignal eVoteOutcome w mne).2 rest

/-- The outcomes of the voting round `vote_click_handler` starts for the
selected proposal `row` and the vote `voteString`, from backend state `w`. -/
def roundOutcomes {W : Type} (S : Services W) (row : ProposalRow) (voteString : String)
    (w : W) (entries : List CMasternodeEntry) : List EntryOutcome :=
  entryOutcomes S (S.SetHex row.hash) (S.ConvertVoteSignal "funding")
    (S.ConvertVoteOutcome voteString) w entries

/-- Number of entries for which every step, `ProcessVoteAndRelay` included,
succeeded. -/
def votesCast (outcomes : List EntryOutcome) : Nat :=
  outcomes.countP (fun o => decide (o = EntryOutcome.voted))

/-- Number of entries whose attempt failed at a step where the loop increments
`nFailed`: key derivation, masternode lookup, signing or relay. -/
def failuresCounted (outcomes : List EntryOutcome) : Nat :=
  outcomes.countP
    (fun o => !(decide (o = EntryOutcome.voted) || decide (o = EntryOutcome.indexUnparsable)))

/-- Number of entries that passed the four steps before `ProcessVoteAndRelay`. -/
def relayAttempts (outcomes : List EntryOutcome) : Nat :=
  outcomes.countP EntryOutcome.reachedRelay

/-- Number of entries whose output index `ParseInt32` rejected. -/
def unparsableIndexes (outcomes : List EntryOutcome) : Nat :=
  outcomes.countP (fun o => decide (o = EntryOutcome.indexUnparsable))

/-- An `int64_t` value. -/
def isInt64 (x : Int) : Prop := -9223372036854775808 ≤ x ∧ x ≤ 9223372036854775807

instance (x : Int) : Decidable (isInt64 x) := by unfold isInt64; infer_instance

/-! ### The countdown label, part by part -/

/-- The `secondsRemaining` of line 250:
`nLastUpdate - GetTime() + PROPOSALLIST_UPDATE_SECONDS` in `int64_t`. -/
def secondsRemaining (K : Decls) (self : ProposalList) (t1 : Int) : Int :=
  wrapInt64 (wrapInt64 (self.nLastUpdate - t1) + K.PROPOSALLIST_UPDATE_SECONDS)

/-- The number the countdown label shows, the first argument of `arg` on line 253:
`(secondsRemaining > 60) ? secondsRemaining / 60 : secondsRemaining`. -/
def countdownNumber (secondsRemaining : Int) : Int :=
  if secondsRemaining > 60 then cdiv secondsRemaining 60 else secondsRemaining

/-- The unit the countdown label shows, `secOrMinutes` of line 252:
`(secondsRemaining / 60 > 1) ? "minute(s)" : "second(s)"`. -/
def countdownUnit (secondsRemaining : Int) : String :=
  if cdiv secondsRemaining 60 > 1 then "minute(s)" else "second(s)"

/-! ### The amount field as its validator describes it -/

/-- The characters of an amount text before its decimal point. -/
def amountWholeDigits (text : String) : List Char :=
  text.toList.takeWhile (fun c => c != '.')

/-- The characters of an amount text from its decimal point on; empty when the
text has no decimal point. -/
def amountTail (text : String) : List Char :=
  text.toList.dropWhile (fun c => c != '.')

/-- Specification side: the integer part of the number an amount text denotes,
that is the value of the digits before the decimal point; `none` when these are
not a run of at least one digit. -/
def amountIntegerPart (text : String) : Option Nat :=
  if (amountWholeDigits text).isEmpty then none
  else QString.digitsValue (amountWholeDigits text) 0

/-- Specification side: the texts of the amount field that `QDoubleValidator(0,
1e20, 8)` of line 65 accepts, as the claim describes them: a non-negative
decimal number up to 1e20 with at most 8 fractional digits. -/
def acceptedAmount (text : String) : Bool :=
  match amountIntegerPart text with
  | none => false
  | some w =>
    match amountTail text with
    | [] => decide (w ≤ 10 ^ 20)
    | _ :: fraction =>
      match QString.digitsValue fraction 0 with
      | none => false
      | some f =>
        decide (fraction.length ≤ 8) &&
          (decide (w < 10 ^ 20) || (decide (w = 10 ^ 20) && decide (f = 0)))

/-! ### A concrete panel -/

/-- Sample declarations with a refresh period of five minutes. -/
def sampleDeclsFiveMinutes : Decls :=
  { MIN_DATE := QDateTime.ofDate (QDate.ofYMD 1970 1 1)
    MAX_DATE := { date := QDate.ofYMD 2106 2 7, msecs := 23295000 }
    PROPOSALLIST_UPDATE_SECONDS := 300 }


/-- Sample declarations: the filter covers 1970-01-01 .. 2106-02-07 and the list
is refreshed every 60 seconds. -/
def sampleDecls : Decls :=
  { MIN_DATE := QDateTime.ofDate (QDate.ofYMD 1970 1 1)
    MAX_DATE := { date := QDate.ofYMD 2106 2 7, msecs := 23295000 }
    PROPOSALLIST_UPDATE_SECONDS := 60 }

/-- A filter proxy without restrictions. -/
def sampleProxy : ProposalFilterProxy :=
  { startDate := sampleDecls.MIN_DATE
    endDate := sampleDecls.MAX_DATE
    proposalName := ""
    nMinAmount := 0
    nMinPercentage := -100
    nMinYesVotes := 0
    nMinNoVotes := 0
    nMinAbsoluteYesVotes := INT_MIN }

/-- Wednesday 8 May 2024. -/
def sampleToday : QDate := QDate.ofYMD 2024 5 8

/-- The panel as constructed on `sampleToday` at time 1715126400 with an empty
settings store. -/
def samplePanel : ProposalList :=
  ProposalList.create sampleDecls QSettings.empty sampleProxy sampleToday 1715126400

/-- The panel `samplePanel` with one proposal selected in the table. -/
def samplePanelSelected : ProposalList :=
  { samplePanel with selectedRows := [{ name := "community-fund", hash := "ab12" }] }

/-- The sample panel after the user picked 15 January 2020 in the end date
editor (the editor's `dateChanged` signal runs `endDateRangeChanged`). -/
def samplePanelEndEdited : ProposalList :=
  ProposalList.endDateRangeChanged
    { samplePanel with
      proposalEndDate := samplePanel.proposalEndDate.setDate (QDate.ofYMD 2020 1 15) }

/-- The sample panel after the user picked 15 January 2020 in the start date
editor (the editor's `dateChanged` signal runs `startDateRangeChanged`). -/
def samplePanelStartEdited : ProposalList :=
  ProposalList.startDateRangeChanged
    { samplePanel with
      proposalStartDate := samplePanel.proposalStartDate.setDate (QDate.ofYMD 2020 1 15) }

/-- The settings store after the user chose "This week" in the start combo box
and "This month" in the end combo box of the sample panel. -/
def sampleSettingsWithModes : QSettings :=
  (ProposalList.chooseEndDate sampleDecls
    (ProposalList.chooseStartDate sampleDecls samplePanel sampleToday 2) sampleToday 3).settings

/-- Sample wallet services over a backend that counts the votes it has relayed:
every non-empty secret gives keys, the output index is read as a decimal
integer, masternodes exist at output index 0 of any transaction, signing always
succeeds and the backend accepts the first two votes it is given. -/
def sampleServices : Services Nat :=
  { GetKeysFromSecret := fun s => if s = "" then none else some (1, 2)
    SetHex := fun s => s.length
    ParseInt32 := fun s => QString.parseInteger s
    ConvertVoteSignal := fun _ => 1
    ConvertVoteOutcome := fun s => if s = "yes" then 1 else if s = "no" then 2 else 3
    mnodemanGet := fun _ o => if o.n = 0 then some { outpoint := o } else none
    Sign := fun _ v _ _ => some { v with vchSig := [1] }
    ProcessVoteAndRelay := fun w _ => (decide (w < 2), w + 1) }

/-- A well-formed masternode entry. -/
def sampleEntry : CMasternodeEntry :=
  { aliasName := "mn1", ip := "203.0.113.5:11994", privKey := "masternode-secret-1"
    txHash := "2bcd3c84c84f87eaa86e4e56834c92927a07f9e18718810b92e0d0324456a67c"
    outputIndex := "0" }

/-- A masternode entry whose output index is not a number. -/
def sampleEntryBadIndex : CMasternodeEntry :=
  { sampleEntry with aliasName := "mn2", outputIndex := "zero" }

/-! # Theorems -/


/-! ## Calendar arithmetic -/

theorem floordiv_eq_ediv (a b : Int) (hb : 0 < b) : floordiv a b = a / b := by
  unfold floordiv cdiv
  split
  · rename_i h
    obtain ⟨n, hn⟩ : ∃ n : Int, a - (b - 1) = -n := ⟨-(a - (b - 1)), by omega⟩
    rw [hn, Int.neg_tdiv, Int.tdiv_eq_ediv (by omega) (by omega)]
    have hq := Int.ediv_add_emod n b
    have hr := Int.emod_nonneg n (by omega : b ≠ 0)
    have hr2 := Int.emod_lt_of_pos n hb
    have hab : a = b * (-(n / b)) + (b - 1 - n % b) := by
      have : a = -n + (b - 1) := by omega
      rw [this]; nth_rewrite 1 [← hq]; ring
    have h3 : a / b = -(n / b) := by
      rw [hab, Int.add_comm, Int.add_mul_ediv_left _ _ (by omega : b ≠ 0)]
      rw [Int.ediv_eq_zero_of_lt (by omega) (by omega)]; simp
    omega
  · rename_i h
    simp
    exact Int.tdiv_eq_ediv (by omega) (by omega)

theorem cmod_seven (a : Int) (h : 0 ≤ a) : cmod a 7 = a % 7 := by
  unfold cmod
  exact Int.tmod_eq_emod h (by norm_num)

namespace QDate

/-- `julianDayFromDate` with the floor divisions written as `/`. -/
theorem julianDayFromDate_eq (year month day : Int) :
    julianDayFromDate year month day =
      day + (153 * (month + 12 * ((14 - month) / 12) - 3) + 2) / 5
        + 365 * ((if year < 0 then year + 1 else year) + 4800 - (14 - month) / 12)
        + ((if year < 0 then year + 1 else year) + 4800 - (14 - month) / 12) / 4
        - ((if year < 0 then year + 1 else year) + 4800 - (14 - month) / 12) / 100
        + ((if year < 0 then year + 1 else year) + 4800 - (14 - month) / 12) / 400 - 32045 := by
  simp only [julianDayFromDate, floordiv_eq_ediv _ _ (by norm_num : (0:Int) < 4),
    floordiv_eq_ediv _ _ (by norm_num : (0:Int) < 5),
    floordiv_eq_ediv _ _ (by norm_num : (0:Int) < 12),
    floordiv_eq_ediv _ _ (by norm_num : (0:Int) < 100),
    floordiv_eq_ediv _ _ (by norm_num : (0:Int) < 400)]

/-- `getDateFromJulianDay` in terms of its intermediate values, with the floor
divisions written as `/`. -/
theorem getDateFromJulianDay_unfold (j a b c d e m : Int) (ha : a = j + 32044)
    (hb : b = (4 * a + 3) / 146097) (hc : c = a - (146097 * b) / 4)
    (hd : d = (4 * c + 3) / 1461) (he : e = c - (1461 * d) / 4)
    (hm : m = (5 * e + 2) / 153) :
    getDateFromJulianDay j =
      { year := (if 100 * b + d - 4800 + m / 10 ≤ 0 then 100 * b + d - 4800 + m / 10 - 1
          else 100 * b + d - 4800 + m / 10)
        month := m + 3 - 12 * (m / 10)
        day := e - (153 * m + 2) / 5 + 1 } := by
  subst ha hb hc hd he hm
  simp only [getDateFromJulianDay, floordiv_eq_ediv _ _ (by norm_num : (0:Int) < 4),
    floordiv_eq_ediv _ _ (by norm_num : (0:Int) < 5),
    floordiv_eq_ediv _ _ (by norm_num : (0:Int) < 10),
    floordiv_eq_ediv _ _ (by norm_num : (0:Int) < 153),
    floordiv_eq_ediv _ _ (by norm_num : (0:Int) < 1461),
    floordiv_eq_ediv _ _ (by norm_num : (0:Int) < 146097)]

/-- The March-based year number `Y`, month number `m` and day offset `k` that
`getDateFromJulianDay` computes before it shifts them to a calendar date. -/
theorem getDateFromJulianDay_eq (j : Int) :
    ∃ Y m k : Int, 0 ≤ m ∧ m ≤ 11 ∧ 0 ≤ k ∧ k ≤ 30 ∧
      j = k + 1 + (153 * m + 2) / 5 + 365 * Y + Y / 4 - Y / 100 + Y / 400 - 32045 ∧
      getDateFromJulianDay j =
        { year := (if Y - 4800 + m / 10 ≤ 0 then Y - 4800 + m / 10 - 1 else Y - 4800 + m / 10)
          month := m + 3 - 12 * (m / 10)
          day := k + 1 } := by
  obtain ⟨a, ha⟩ : ∃ a : Int, a = j + 32044 := ⟨_, rfl⟩
  obtain ⟨b, hb⟩ : ∃ b : Int, b = (4 * a + 3) / 146097 := ⟨_, rfl⟩
  obtain ⟨c, hc⟩ : ∃ c : Int, c = a - (146097 * b) / 4 := ⟨_, rfl⟩
  obtain ⟨d, hd⟩ : ∃ d : Int, d = (4 * c + 3) / 1461 := ⟨_, rfl⟩
  obtain ⟨e, he⟩ : ∃ e : Int, e = c - (1461 * d) / 4 := ⟨_, rfl⟩
  obtain ⟨m, hm⟩ : ∃ m : Int, m = (5 * e + 2) / 153 := ⟨_, rfl⟩
  have hu := getDateFromJulianDay_unfold j a b c d e m ha hb hc hd he hm
  have h1 : 0 ≤ c ∧ c ≤ 36524 := by omega
  have h2 : 0 ≤ d ∧ d ≤ 99 := by omega
  have h3 : 0 ≤ e ∧ e ≤ 365 := by omega
  have h4 : 0 ≤ m ∧ m ≤ 11 := by omega
  have h5 : 0 ≤ e - (153*m+2)/5 ∧ e - (153*m+2)/5 ≤ 30 := by omega
  refine ⟨100 * b + d, m, e - (153 * m + 2) / 5, h4.1, h4.2, h5.1, h5.2, ?_, hu⟩
  have e4 : (100 * b + d)/4 = 25*b + d/4 := by omega
  have e100 : (100 * b + d)/100 = b := by omega
  have e400 : (100 * b + d)/400 = b/4 := by omega
  have hq : (146097*b)/4 = 36524*b + b/4 := by omega
  have hq2 : (1461*d)/4 = 365*d + d/4 := by omega
  omega

/-- `getDateFromJulianDay` inverts the day-number formula on the first 28 days
of a (March-based) month. -/
theorem getDateFromJulianDay_of_fields (Y m k : Int) (hm0 : 0 ≤ m) (hm1 : m ≤ 11)
    (hk0 : 0 ≤ k) (hk1 : k ≤ 27) :
    getDateFromJulianDay
        (k + 1 + (153 * m + 2) / 5 + 365 * Y + Y / 4 - Y / 100 + Y / 400 - 32045) =
      { year := (if Y - 4800 + m / 10 ≤ 0 then Y - 4800 + m / 10 - 1 else Y - 4800 + m / 10)
        month := m + 3 - 12 * (m / 10)
        day := k + 1 } := by
  obtain ⟨j, hj⟩ : ∃ j : Int,
      j = k + 1 + (153 * m + 2) / 5 + 365 * Y + Y / 4 - Y / 100 + Y / 400 - 32045 := ⟨_, rfl⟩
  obtain ⟨a, ha⟩ : ∃ a : Int, a = j + 32044 := ⟨_, rfl⟩
  obtain ⟨b, hb⟩ : ∃ b : Int, b = (4 * a + 3) / 146097 := ⟨_, rfl⟩
  obtain ⟨c, hc⟩ : ∃ c : Int, c = a - (146097 * b) / 4 := ⟨_, rfl⟩
  obtain ⟨d, hd⟩ : ∃ d : Int, d = (4 * c + 3) / 1461 := ⟨_, rfl⟩
  obtain ⟨e, he⟩ : ∃ e : Int, e = c - (1461 * d) / 4 := ⟨_, rfl⟩
  obtain ⟨m2, hm2⟩ : ∃ m2 : Int, m2 = (5 * e + 2) / 153 := ⟨_, rfl⟩
  have hu := getDateFromJulianDay_unfold j a b c d e m2 ha hb hc hd he hm2
  rw [← hj, hu]
  have h4 : Y/4 = 25*(Y/100) + (Y%100)/4 := by omega
  have h400 : Y/400 = (Y/100)/4 := by omega
  have hq : (146097*(Y/100))/4 = 36524*(Y/100) + (Y/100)/4 := by omega
  have e1 : b = Y/100 := by omega
  have e2 : c = k + (153*m+2)/5 + 365*(Y%100) + (Y%100)/4 := by
    rw [e1] at hc; omega
  have e3 : d = Y % 100 := by omega
  have e4 : e = k + (153*m+2)/5 := by
    rw [e3] at he; omega
  have e5 : m2 = m := by omega
  have e6 : 100 * b + d = Y := by omega
  rw [e6, e5, e4]
  congr 1
  omega

/-- `getDateFromJulianDay` gives back the first day of a month from the day
number `julianDayFromDate` assigns to it. -/
theorem getDateFromJulianDay_first (y m : Int) (hy : y ≠ 0) (hm0 : 1 ≤ m) (hm1 : m ≤ 12) :
    getDateFromJulianDay (julianDayFromDate y m 1) = { year := y, month := m, day := 1 } := by
  rw [julianDayFromDate_eq]
  have h := getDateFromJulianDay_of_fields
    ((if y < 0 then y + 1 else y) + 4800 - (14 - m) / 12) (m + 12 * ((14 - m) / 12) - 3) 0
    (by omega) (by omega) (by omega) (by omega)
  have e : (1 : Int) + (153 * (m + 12 * ((14 - m) / 12) - 3) + 2) / 5
        + 365 * ((if y < 0 then y + 1 else y) + 4800 - (14 - m) / 12)
        + ((if y < 0 then y + 1 else y) + 4800 - (14 - m) / 12) / 4
        - ((if y < 0 then y + 1 else y) + 4800 - (14 - m) / 12) / 100
        + ((if y < 0 then y + 1 else y) + 4800 - (14 - m) / 12) / 400 - 32045
      = 0 + 1 + (153 * (m + 12 * ((14 - m) / 12) - 3) + 2) / 5
        + 365 * ((if y < 0 then y + 1 else y) + 4800 - (14 - m) / 12)
        + ((if y < 0 then y + 1 else y) + 4800 - (14 - m) / 12) / 4
        - ((if y < 0 then y + 1 else y) + 4800 - (14 - m) / 12) / 100
        + ((if y < 0 then y + 1 else y) + 4800 - (14 - m) / 12) / 400 - 32045 := by ring
  rw [e, h]
  have hmm : (m + 12 * ((14 - m) / 12) - 3) / 10 = (14 - m) / 12 := by omega
  rw [hmm]
  congr 1
  · split <;> split <;> omega
  · omega

/-- `julianDayFromDate` on the calendar date that `getDateFromJulianDay` makes
of a March-based year number `Y` and month number `m`. -/
theorem julianDayFromDate_of_fields (Y m dd : Int) (hm0 : 0 ≤ m) (hm1 : m ≤ 11) :
    julianDayFromDate
        (if Y - 4800 + m / 10 ≤ 0 then Y - 4800 + m / 10 - 1 else Y - 4800 + m / 10)
        (m + 3 - 12 * (m / 10)) dd =
      dd + (153 * m + 2) / 5 + 365 * Y + Y / 4 - Y / 100 + Y / 400 - 32045 := by
  rw [julianDayFromDate_eq]
  have ha : (14 - (m + 3 - 12 * (m / 10))) / 12 = m / 10 := by omega
  have hm : m + 3 - 12 * (m / 10) + 12 * (m / 10) - 3 = m := by omega
  have hy : (if (if Y - 4800 + m / 10 ≤ 0 then Y - 4800 + m / 10 - 1 else Y - 4800 + m / 10) < 0
      then (if Y - 4800 + m / 10 ≤ 0 then Y - 4800 + m / 10 - 1 else Y - 4800 + m / 10) + 1
      else (if Y - 4800 + m / 10 ≤ 0 then Y - 4800 + m / 10 - 1 else Y - 4800 + m / 10))
      + 4800 - m / 10 = Y := by
    split <;> split <;> omega
  rw [ha, hm, hy]

/-- The day of the week is the Julian day number modulo 7, Monday first. -/
theorem dayOfWeek_eq (d : QDate) (hv : d.isValid = true) : d.dayOfWeek = d.jd % 7 + 1 := by
  unfold dayOfWeek isNull
  rw [hv]
  simp only [Bool.not_true, Bool.false_eq_true, if_false]
  split
  · rename_i h
    rw [cmod_seven _ h]
  · rename_i h
    obtain ⟨n, hn⟩ : ∃ n : Int, d.jd + 1 = -n := ⟨-(d.jd + 1), by omega⟩
    have hn0 : 0 ≤ n := by omega
    unfold cmod
    rw [hn, Int.tmod_def, Int.neg_tdiv, Int.tdiv_eq_ediv hn0 (by norm_num)]
    omega

theorem isValid_iff (d : QDate) : d.isValid = true ↔ minJd ≤ d.jd ∧ d.jd ≤ maxJd := by
  simp [isValid]

theorem isValidYMD_first (y m : Int) (hy : y ≠ 0) (hm0 : 1 ≤ m) (hm1 : m ≤ 12) :
    isValidYMD y m 1 = true := by
  have h : 1 ≤ monthDays m := by
    have : m = 1 ∨ m = 2 ∨ m = 3 ∨ m = 4 ∨ m = 5 ∨ m = 6 ∨ m = 7 ∨ m = 8 ∨ m = 9 ∨ m = 10
        ∨ m = 11 ∨ m = 12 := by omega
    rcases this with h | h | h | h | h | h | h | h | h | h | h | h <;> subst h <;> decide
  simp [isValidYMD, hy, h]
  omega

/-- The first day of a month as a `QDate`. -/
theorem ofYMD_first (y m : Int) (hy : y ≠ 0) (hm0 : 1 ≤ m) (hm1 : m ≤ 12) :
    ofYMD y m 1 = ⟨julianDayFromDate y m 1⟩ := by
  simp [ofYMD, isValidYMD_first y m hy hm0 hm1]

/-- The year, month and day of a valid date, and the day number of the first
of its month. -/
theorem fields_of_valid (d : QDate) (hv : d.isValid = true) :
    d.year ≠ 0 ∧ 1 ≤ d.month ∧ d.month ≤ 12 ∧ 1 ≤ d.day ∧ d.day ≤ 31 ∧
      julianDayFromDate d.year d.month 1 = d.jd - (d.day - 1) := by
  obtain ⟨Y, m, k, hm0, hm1, hk0, hk1, hj, hpd⟩ := getDateFromJulianDay_eq d.jd
  have hj1 := julianDayFromDate_of_fields Y m 1 hm0 hm1
  simp only [year, month, day, isNull, hv, Bool.not_true, Bool.false_eq_true, if_false, hpd]
  refine ⟨?_, by omega, by omega, by omega, by omega, ?_⟩
  · split <;> omega
  · rw [hj1]; omega

/-- The first of January is not after the first of any month of its year, and
at most 335 days before it. -/
theorem julianDayFromDate_january (y m : Int) (hm0 : 1 ≤ m) (hm1 : m ≤ 12) :
    julianDayFromDate y 1 1 ≤ julianDayFromDate y m 1 ∧
      julianDayFromDate y m 1 - julianDayFromDate y 1 1 ≤ 335 := by
  rw [julianDayFromDate_eq, julianDayFromDate_eq]
  obtain ⟨z, hz⟩ : ∃ z : Int, z = (if y < 0 then y + 1 else y) + 4800 := ⟨_, rfl⟩
  have e1 : (14 - (1 : Int)) / 12 = 1 := by norm_num
  rw [e1, ← hz]
  have h4 : z / 4 - (z - 1) / 4 = (if z % 4 = 0 then 1 else 0) := by split <;> omega
  have h100 : z / 100 - (z - 1) / 100 = (if z % 100 = 0 then 1 else 0) := by split <;> omega
  have h400 : z / 400 - (z - 1) / 400 = (if z % 400 = 0 then 1 else 0) := by split <;> omega
  have hl1 : z % 400 = 0 → z % 100 = 0 := by omega
  have hl2 : z % 100 = 0 → z % 4 = 0 := by omega
  have hm : m = 1 ∨ m = 2 ∨ m = 3 ∨ m = 4 ∨ m = 5 ∨ m = 6 ∨ m = 7 ∨ m = 8 ∨ m = 9 ∨ m = 10
      ∨ m = 11 ∨ m = 12 := by omega
  rcases hm with h | h | h | h | h | h | h | h | h | h | h | h <;> subst h <;> norm_num <;>
    (split at h4 <;> split at h100 <;> split at h400 <;> omega)


/-- Within a year, the first of the previous month is 28 to 31 days before the
first of a month. -/
theorem julianDayFromDate_previous (y m : Int) (hm0 : 2 ≤ m) (hm1 : m ≤ 12) :
    julianDayFromDate y (m - 1) 1 < julianDayFromDate y m 1 ∧
      julianDayFromDate y m 1 - julianDayFromDate y (m - 1) 1 ≤ 31 := by
  rw [julianDayFromDate_eq, julianDayFromDate_eq]
  obtain ⟨z, hz⟩ : ∃ z : Int, z = (if y < 0 then y + 1 else y) + 4800 := ⟨_, rfl⟩
  rw [← hz]
  have h4 : z / 4 - (z - 1) / 4 = (if z % 4 = 0 then 1 else 0) := by split <;> omega
  have h100 : z / 100 - (z - 1) / 100 = (if z % 100 = 0 then 1 else 0) := by split <;> omega
  have h400 : z / 400 - (z - 1) / 400 = (if z % 400 = 0 then 1 else 0) := by split <;> omega
  have hl1 : z % 400 = 0 → z % 100 = 0 := by omega
  have hl2 : z % 100 = 0 → z % 4 = 0 := by omega
  have hm : m = 2 ∨ m = 3 ∨ m = 4 ∨ m = 5 ∨ m = 6 ∨ m = 7 ∨ m = 8 ∨ m = 9 ∨ m = 10
      ∨ m = 11 ∨ m = 12 := by omega
  rcases hm with h | h | h | h | h | h | h | h | h | h | h <;> subst h <;>
    (norm_num; try (split at h4 <;> split at h100 <;> split at h400 <;> omega))

/-- December of the previous year starts 31 days before January; the year
before year 1 is year -1. -/
theorem julianDayFromDate_december (y : Int) (hy : y ≠ 0) :
    julianDayFromDate y 1 1 - julianDayFromDate (if y = 1 then -1 else y - 1) 12 1 = 31 := by
  rw [julianDayFromDate_eq, julianDayFromDate_eq]
  obtain ⟨z, hz⟩ : ∃ z : Int, z = (if y < 0 then y + 1 else y) + 4800 := ⟨_, rfl⟩
  have hz' : (if (if y = 1 then (-1 : Int) else y - 1) < 0
      then (if y = 1 then (-1 : Int) else y - 1) + 1
      else (if y = 1 then (-1 : Int) else y - 1)) + 4800 = z - 1 := by
    split <;> split <;> split at hz <;> omega
  rw [← hz, hz']
  norm_num

/-- The first of the month before month `m` of year `y`. -/
theorem julianDayFromDate_lastMonth (y m : Int) (hy : y ≠ 0) (hm0 : 1 ≤ m) (hm1 : m ≤ 12) :
    julianDayFromDate (if m = 1 then (if y = 1 then -1 else y - 1) else y)
        (if m = 1 then 12 else m - 1) 1 < julianDayFromDate y m 1 ∧
      julianDayFromDate y m 1 - julianDayFromDate (if m = 1 then (if y = 1 then -1 else y - 1) else y)
        (if m = 1 then 12 else m - 1) 1 ≤ 31 := by
  by_cases h : m = 1
  · subst h
    have := julianDayFromDate_december y hy
    simp only [if_true]
    omega
  · simp only [h, if_false]
    exact julianDayFromDate_previous y m (by omega) hm1

theorem addMonthsLoop_minus_one (y m : Int) :
    addMonthsLoop 3 y m (-1) = if m + -1 ≤ 0 then (y - 1, m + -1 + 12) else (y, m + -1) := by
  simp [addMonthsLoop]

/-- One month back from the first of a month is the first of the month
before: `QDate::addMonths(-1)` on `QDate(y, m, 1)`. -/
theorem addMonths_minus_one_first (y m : Int) (hy : y ≠ 0) (hm0 : 1 ≤ m) (hm1 : m ≤ 12)
    (hlo : minJd + 31 ≤ julianDayFromDate y m 1) (hhi : julianDayFromDate y m 1 ≤ maxJd) :
    (ofYMD y m 1).addMonths (-1) =
      ⟨julianDayFromDate (if m = 1 then (if y = 1 then -1 else y - 1) else y)
        (if m = 1 then 12 else m - 1) 1⟩ := by
  have hprev := julianDayFromDate_lastMonth y m hy hm0 hm1
  obtain ⟨y2, hy2⟩ : ∃ y2 : Int, y2 = (if m = 1 then (if y = 1 then -1 else y - 1) else y) :=
    ⟨_, rfl⟩
  obtain ⟨m2, hm2⟩ : ∃ m2 : Int, m2 = (if m = 1 then 12 else m - 1) := ⟨_, rfl⟩
  rw [← hy2, ← hm2] at hprev ⊢
  have hy2n : y2 ≠ 0 := by rw [hy2]; split <;> [split <;> omega; exact hy]
  have hm2r : 1 ≤ m2 ∧ m2 ≤ 12 := by rw [hm2]; split <;> omega
  have hv : (⟨julianDayFromDate y m 1⟩ : QDate).isValid = true := by
    rw [isValid_iff]; dsimp only; omega
  have hv2 : (⟨julianDayFromDate y2 m2 1⟩ : QDate).isValid = true := by
    rw [isValid_iff]; dsimp only; omega
  have hdim : 1 ≤ (ofYMD y2 m2 1).daysInMonth := by
    rw [ofYMD_first y2 m2 hy2n hm2r.1 hm2r.2]
    simp only [daysInMonth, isNull, hv2, Bool.not_true, Bool.false_eq_true, if_false,
      getDateFromJulianDay_first y2 m2 hy2n hm2r.1 hm2r.2]
    have : m2 = 1 ∨ m2 = 2 ∨ m2 = 3 ∨ m2 = 4 ∨ m2 = 5 ∨ m2 = 6 ∨ m2 = 7 ∨ m2 = 8 ∨ m2 = 9
        ∨ m2 = 10 ∨ m2 = 11 ∨ m2 = 12 := by omega
    rcases this with h | h | h | h | h | h | h | h | h | h | h | h <;> subst h <;>
      (split <;> simp [monthDays])
  rw [ofYMD_first y m hy hm0 hm1]
  unfold addMonths
  simp only [hv, Bool.not_true, Bool.false_eq_true, if_false,
    getDateFromJulianDay_first y m hy hm0 hm1]
  have hne : ((-1 : Int) = 0) = False := by simp
  simp only [hne, if_false]
  have hfuel : (-1 : Int).natAbs + 2 = 3 := by decide
  rw [hfuel, addMonthsLoop_minus_one]
  have hloop : (if m + -1 ≤ 0 then (y - 1, m + -1 + 12) else (y, m + -1))
      = ((if m = 1 then y - 1 else y), m2) := by
    rw [hm2]; split <;> split <;> first | rfl | omega | (congr 1; omega)
  rw [hloop]
  simp only
  have hsign : (if (y > 0 ∧ (if m = 1 then y - 1 else y) ≤ 0) ∨
        (y < 0 ∧ (if m = 1 then y - 1 else y) ≥ 0) then
        (if decide ((-1 : Int) > 0) = true then (if m = 1 then y - 1 else y) + 1
          else (if m = 1 then y - 1 else y) - 1)
      else (if m = 1 then y - 1 else y)) = y2 := by
    rw [hy2]
    by_cases h1 : m = 1
    · simp only [h1, if_true]
      by_cases h2 : y = 1
      · subst h2; decide
      · simp only [h2, if_false]
        rw [if_neg]
        omega
    · simp only [h1, if_false]
      rw [if_neg]
      omega
  rw [hsign]
  unfold fixedDate
  simp only
  rw [min_eq_left hdim, ofYMD_first y2 m2 hy2n hm2r.1 hm2r.2]

end QDate


/-! ## The voting loop -/

/-- The outcomes for which the loop body increments `nFailed`. -/
theorem voteLoopBody_spec {W : Type} (S : Services W) (hash : Nat) (eVoteSignal eVoteOutcome : Int)
    (st : VoteLoop W) (mne : CMasternodeEntry) :
    (voteLoopBody S hash eVoteSignal eVoteOutcome st mne).world
        = (entryAttempt S hash eVoteSignal eVoteOutcome st.world mne).2 ∧
      (voteLoopBody S hash eVoteSignal eVoteOutcome st mne).nSuccessful
        = st.nSuccessful +
          (if (entryAttempt S hash eVoteSignal eVoteOutcome st.world mne).1 = EntryOutcome.voted
            then 1 else 0) ∧
      (voteLoopBody S hash eVoteSignal eVoteOutcome st mne).nFailed
        = st.nFailed +
          (if (entryAttempt S hash eVoteSignal eVoteOutcome st.world mne).1 = EntryOutcome.voted ∨
              (entryAttempt S hash eVoteSignal eVoteOutcome st.world mne).1
                = EntryOutcome.indexUnparsable
            then 0 else 1) ∧
      ∃ added : List Effect,
        (voteLoopBody S hash eVoteSignal eVoteOutcome st mne).effects = st.effects ++ added ∧
        (∀ e ∈ added, e.isSign = true ∨ e.isRelay = true) ∧
        relayCalls added =
          (if (entryAttempt S hash eVoteSignal eVoteOutcome st.world mne).1.reachedRelay
            then 1 else 0) := by
  cases hk : S.GetKeysFromSecret mne.privKey with
  | none =>
    refine ⟨?_, ?_, ?_, [], ?_, ?_, ?_⟩ <;>
      simp [voteLoopBody, entryAttempt, hk, relayCalls, EntryOutcome.reachedRelay]
  | some keys =>
    obtain ⟨k1, k2⟩ := keys
    cases hp : S.ParseInt32 mne.outputIndex with
    | none =>
      refine ⟨?_, ?_, ?_, [], ?_, ?_, ?_⟩ <;>
        simp [voteLoopBody, entryAttempt, hk, hp, relayCalls, EntryOutcome.reachedRelay]
    | some n =>
      cases hg : S.mnodemanGet st.world { hash := S.SetHex mne.txHash, n := n } with
      | none =>
        refine ⟨?_, ?_, ?_, [], ?_, ?_, ?_⟩ <;>
          simp [voteLoopBody, entryAttempt, hk, hp, hg, relayCalls, EntryOutcome.reachedRelay]
      | some mn =>
        cases hs : S.Sign st.world
            { masternodeOutpoint := mn.outpoint, nParentHash := hash
              nVoteSignal := eVoteSignal, nVoteOutcome := eVoteOutcome, vchSig := [] } k1 k2 with
        | none =>
          refine ⟨?_, ?_, ?_,
            [Effect.sign { masternodeOutpoint := mn.outpoint, nParentHash := hash
                           nVoteSignal := eVoteSignal, nVoteOutcome := eVoteOutcome
                           vchSig := [] } false], ?_, ?_, ?_⟩ <;>
            simp [voteLoopBody, entryAttempt, hk, hp, hg, hs, relayCalls,
              EntryOutcome.reachedRelay, Effect.isSign, Effect.isRelay]
        | some sv =>
          cases hr : (S.ProcessVoteAndRelay st.world sv).1 with
          | true =>
            refine ⟨?_, ?_, ?_,
              [Effect.sign { masternodeOutpoint := mn.outpoint, nParentHash := hash
                             nVoteSignal := eVoteSignal, nVoteOutcome := eVoteOutcome
                             vchSig := [] } true, Effect.processVoteAndRelay sv true],
              ?_, ?_, ?_⟩ <;>
              simp [voteLoopBody, entryAttempt, hk, hp, hg, hs, hr, relayCalls,
                EntryOutcome.reachedRelay, Effect.isSign, Effect.isRelay]
          | false =>
            refine ⟨?_, ?_, ?_,
              [Effect.sign { masternodeOutpoint := mn.outpoint, nParentHash := hash
                             nVoteSignal := eVoteSignal, nVoteOutcome := eVoteOutcome
                             vchSig := [] } true, Effect.processVoteAndRelay sv false],
              ?_, ?_, ?_⟩ <;>
              simp [voteLoopBody, entryAttempt, hk, hp, hg, hs, hr, relayCalls,
                EntryOutcome.reachedRelay, Effect.isSign, Effect.isRelay]

/-- What the whole loop does to its variables, in terms of the outcomes of the
attempts: `nSuccessful` grows by the number of votes cast, `nFailed` by the
number of attempts that fail anywhere but at the output index, the backend is
asked to relay once per attempt that got through signing, and only signing and
relay effects are added. -/
theorem voteLoop_spec {W : Type} (S : Services W) (hash : Nat) (eVoteSignal eVoteOutcome : Int)
    (entries : List CMasternodeEntry) (st : VoteLoop W) :
    (entries.foldl (voteLoopBody S hash eVoteSignal eVoteOutcome) st).nSuccessful
        = st.nSuccessful +
          (votesCast (entryOutcomes S hash eVoteSignal eVoteOutcome st.world entries) : Nat) ∧
      (entries.foldl (voteLoopBody S hash eVoteSignal eVoteOutcome) st).nFailed
        = st.nFailed +
          (failuresCounted (entryOutcomes S hash eVoteSignal eVoteOutcome st.world entries) : Nat) ∧
      ∃ added : List Effect,
        (entries.foldl (voteLoopBody S hash eVoteSignal eVoteOutcome) st).effects
          = st.effects ++ added ∧
        (∀ e ∈ added, e.isSign = true ∨ e.isRelay = true) ∧
        relayCalls added =
          relayAttempts (entryOutcomes S hash eVoteSignal eVoteOutcome st.world entries) := by
  unfold votesCast failuresCounted relayAttempts
  induction entries generalizing st with
  | nil => exact ⟨by simp [entryOutcomes], by simp [entryOutcomes], [], by simp,
      by simp, by simp [entryOutcomes, relayCalls]⟩
  | cons mne rest ih =>
    obtain ⟨hw, hs, hf, a1, ha1, hk1, hr1⟩ :=
      voteLoopBody_spec S hash eVoteSignal eVoteOutcome st mne
    obtain ⟨is, ifl, a2, ha2, hk2, hr2⟩ :=
      ih (voteLoopBody S hash eVoteSignal eVoteOutcome st mne)
    simp only [List.foldl_cons, entryOutcomes, List.countP_cons]
    rw [hw] at is ifl hr2
    refine ⟨?_, ?_, a1 ++ a2, ?_, ?_, ?_⟩
    · rw [is, hs]
      generalize (entryAttempt S hash eVoteSignal eVoteOutcome st.world mne).1 = o
      cases o <;> (simp; try omega)
    · rw [ifl, hf]
      generalize (entryAttempt S hash eVoteSignal eVoteOutcome st.world mne).1 = o
      cases o <;> simp <;> omega
    · rw [ha2, ha1, List.append_assoc]
    · intro e he
      rcases List.mem_append.mp he with h | h
      · exact hk1 e h
      · exact hk2 e h
    · unfold relayCalls at hr1 hr2 ⊢
      rw [List.countP_append, hr1, hr2]
      cases (entryAttempt S hash eVoteSignal eVoteOutcome st.world mne).1.reachedRelay
      · simp
      · simp; omega

theorem entryOutcomes_length {W : Type} (S : Services W) (hash : Nat)
    (eVoteSignal eVoteOutcome : Int) (entries : List CMasternodeEntry) (w : W) :
    (entryOutcomes S hash eVoteSignal eVoteOutcome w entries).length = entries.length := by
  induction entries generalizing w with
  | nil => rfl
  | cons mne rest ih => simp [entryOutcomes, ih]


open ProposalList

/-! ## Claims about `vote_click_handler` -/

theorem reportedCounters_append_votes (pre added : List Effect) (tail : List Effect)
    (hpre : ∀ e ∈ pre, e.isInformation = false)
    (hadded : ∀ e ∈ added, e.isSign = true ∨ e.isRelay = true) :
    reportedCounters (pre ++ added ++ tail) = reportedCounters tail := by
  have skip : ∀ l : List Effect, (∀ e ∈ l, e.isInformation = false) →
      reportedCounters (l ++ tail) = reportedCounters tail := by
    intro l
    induction l with
    | nil => intro _; rfl
    | cons e rest ih =>
      intro h
      have he := h e (List.mem_cons_self _ _)
      have hrest := ih (fun x hx => h x (List.mem_cons_of_mem _ hx))
      cases e <;> simp_all [reportedCounters, Effect.isInformation]
  apply skip (pre ++ added)
  intro e he
  rcases List.mem_append.mp he with h | h
  · exact hpre e h
  · rcases hadded e h with h2 | h2 <;> cases e <;>
      simp_all [Effect.isInformation, Effect.isSign, Effect.isRelay]

/-- Shape of a confirmed voting round: the effects are the question, the
signing and relay calls of the loop, and the result dialog with the counters
the loop ends with. -/
theorem vote_click_handler_confirmed {W : Type} (K : Decls) (S : Services W)
    (self : ProposalList) (w : W) (entries : List CMasternodeEntry) (voteString : String)
    (t1 t2 : Int) (row : ProposalRow) (rest : List ProposalRow)
    (hsel : self.hasSelectionModel = true) (hrows : self.selectedRows = row :: rest) :
    ∃ added : List Effect,
      (self.vote_click_handler K S w entries voteString StandardButton.Yes t1 t2).effects
        = [Effect.question voteString row.name] ++ added ++
          [Effect.information voteString
            (votesCast (roundOutcomes S row voteString w entries) : Nat)
            (failuresCounted (roundOutcomes S row voteString w entries) : Nat) row.name] ∧
      (∀ e ∈ added, e.isSign = true ∨ e.isRelay = true) ∧
      relayCalls added = relayAttempts (roundOutcomes S row voteString w entries) := by
  obtain ⟨hs, hf, added, ha, hk, hr⟩ :=
    voteLoop_spec S (S.SetHex row.hash) (S.ConvertVoteSignal "funding")
      (S.ConvertVoteOutcome voteString) entries
      { world := w, nSuccessful := 0, nFailed := 0
        effects := [Effect.question voteString row.name] }
  refine ⟨added, ?_, hk, hr⟩
  simp only [vote_click_handler, hsel, hrows, Bool.true_eq_false, if_false, ne_eq,
    not_true_eq_false]
  rw [ha, hs, hf]
  simp [roundOutcomes]

/-- The counters a confirmed voting round reports and the number of relay calls
it makes. -/
theorem vote_click_handler_report {W : Type} (K : Decls) (S : Services W)
    (self : ProposalList) (w : W) (entries : List CMasternodeEntry) (voteString : String)
    (t1 t2 : Int) (row : ProposalRow) (rest : List ProposalRow)
    (hsel : self.hasSelectionModel = true) (hrows : self.selectedRows = row :: rest) :
    reportedCounters
        (self.vote_click_handler K S w entries voteString StandardButton.Yes t1 t2).effects
      = some (((votesCast (roundOutcomes S row voteString w entries) : Nat) : Int),
          ((failuresCounted (roundOutcomes S row voteString w entries) : Nat) : Int)) ∧
    relayCalls
        (self.vote_click_handler K S w entries voteString StandardButton.Yes t1 t2).effects
      = relayAttempts (roundOutcomes S row voteString w entries) := by
  obtain ⟨added, heff, hk, hr⟩ :=
    vote_click_handler_confirmed K S self w entries voteString t1 t2 row rest hsel hrows
  constructor
  · rw [heff, reportedCounters_append_votes _ _ _ (by simp [Effect.isInformation]) hk]
    rfl
  · rw [heff]
    unfold relayCalls at hr ⊢
    rw [List.countP_append, List.countP_append, hr]
    simp [Effect.isRelay]

/-- C2: in a confirmed voting round `nSuccessful`, as the result dialog shows
it, is the number of entries for which key derivation, output-index parsing,
masternode lookup, signing and `ProcessVoteAndRelay` all succeed; and
`ProcessVoteAndRelay` is called once for each entry that passed the four
earlier steps, each entry being attempted once, so at most once per entry. -/
theorem vote_click_handler_counts_successes {W : Type} (K : Decls) (S : Services W)
    (self : ProposalList) (w : W) (entries : List CMasternodeEntry) (voteString : String)
    (t1 t2 : Int) (row : ProposalRow) (rest : List ProposalRow)
    (hsel : self.hasSelectionModel = true) (hrows : self.selectedRows = row :: rest) :
    (∃ nFailed : Int,
      reportedCounters
          (self.vote_click_handler K S w entries voteString StandardButton.Yes t1 t2).effects
        = some (((votesCast (roundOutcomes S row voteString w entries) : Nat) : Int), nFailed)) ∧
      relayCalls
          (self.vote_click_handler K S w entries voteString StandardButton.Yes t1 t2).effects
        = relayAttempts (roundOutcomes S row voteString w entries) ∧
      relayCalls
          (self.vote_click_handler K S w entries voteString StandardButton.Yes t1 t2).effects
        ≤ entries.length ∧
      (roundOutcomes S row voteString w entries).length = entries.length := by
  obtain ⟨hrep, hcalls⟩ :=
    vote_click_handler_report K S self w entries voteString t1 t2 row rest hsel hrows
  have hlen : (roundOutcomes S row voteString w entries).length = entries.length :=
    entryOutcomes_length S _ _ _ entries w
  refine ⟨⟨_, hrep⟩, hcalls, ?_, hlen⟩
  rw [hcalls, ← hlen]
  exact List.countP_le_length _

theorem vote_click_handler_counts_successes_witness :
    (∃ nFailed : Int,
      reportedCounters
          (samplePanelSelected.vote_click_handler sampleDecls sampleServices 0
            [sampleEntry, sampleEntryBadIndex, sampleEntry, sampleEntry] "yes"
            StandardButton.Yes 1715126460 1715126460).effects
        = some (((votesCast (roundOutcomes sampleServices
            { name := "community-fund", hash := "ab12" } "yes" 0
            [sampleEntry, sampleEntryBadIndex, sampleEntry, sampleEntry]) : Nat) : Int),
            nFailed)) ∧
      relayCalls
          (samplePanelSelected.vote_click_handler sampleDecls sampleServices 0
            [sampleEntry, sampleEntryBadIndex, sampleEntry, sampleEntry] "yes"
            StandardButton.Yes 1715126460 1715126460).effects
        = relayAttempts (roundOutcomes sampleServices
            { name := "community-fund", hash := "ab12" } "yes" 0
            [sampleEntry, sampleEntryBadIndex, sampleEntry, sampleEntry]) ∧
      relayCalls
          (samplePanelSelected.vote_click_handler sampleDecls sampleServices 0
            [sampleEntry, sampleEntryBadIndex, sampleEntry, sampleEntry] "yes"
            StandardButton.Yes 1715126460 1715126460).effects
        ≤ [sampleEntry, sampleEntryBadIndex, sampleEntry, sampleEntry].length ∧
      (roundOutcomes sampleServices { name := "community-fund", hash := "ab12" } "yes" 0
        [sampleEntry, sampleEntryBadIndex, sampleEntry, sampleEntry]).length
        = [sampleEntry, sampleEntryBadIndex, sampleEntry, sampleEntry].length :=
  vote_click_handler_counts_successes sampleDecls sampleServices samplePanelSelected 0
    [sampleEntry, sampleEntryBadIndex, sampleEntry, sampleEntry] "yes"
    1715126460 1715126460 { name := "community-fund", hash := "ab12" } [] rfl rfl

/-- The sample round evaluated: two votes are cast, the third relay is refused,
and the entry with the bad index is in neither counter. -/
theorem sample_round_counters :
    reportedCounters
        (samplePanelSelected.vote_click_handler sampleDecls sampleServices 0
          [sampleEntry, sampleEntryBadIndex, sampleEntry, sampleEntry] "yes"
          StandardButton.Yes 1715126460 1715126460).effects = some (2, 1) := by
  decide



theorem outcomes_partition (os : List EntryOutcome) :
    votesCast os + failuresCounted os + unparsableIndexes os = os.length := by
  unfold votesCast failuresCounted unparsableIndexes
  induction os with
  | nil => rfl
  | cons o rest ih =>
    simp only [List.countP_cons, List.length_cons]
    cases o <;> simp at ih ⊢ <;> omega

/-- The counters of a confirmed voting round account for every entry but those
whose output index `ParseInt32` rejects: the `continue` on line 485 is the only
way out of the loop body that increments neither counter. -/
theorem vote_click_handler_accounting {W : Type} (K : Decls) (S : Services W)
    (self : ProposalList) (w : W) (entries : List CMasternodeEntry) (voteString : String)
    (t1 t2 : Int) (row : ProposalRow) (rest : List ProposalRow)
    (hsel : self.hasSelectionModel = true) (hrows : self.selectedRows = row :: rest) :
    ∃ nSuccessful nFailed : Int,
      reportedCounters
          (self.vote_click_handler K S w entries voteString StandardButton.Yes t1 t2).effects
        = some (nSuccessful, nFailed) ∧
      nSuccessful + nFailed
          + (unparsableIndexes (roundOutcomes S row voteString w entries) : Nat)
        = entries.length := by
  obtain ⟨hrep, _⟩ :=
    vote_click_handler_report K S self w entries voteString t1 t2 row rest hsel hrows
  refine ⟨_, _, hrep, ?_⟩
  have hp := outcomes_partition (roundOutcomes S row voteString w entries)
  have hlen : (roundOutcomes S row voteString w entries).length = entries.length :=
    entryOutcomes_length S _ _ _ entries w
  omega

/-- C1 (the code departs from it): with one configured entry whose output index
is not a number, the result dialog reports 0 successful and 0 failed votes, so
the two counters do not add up to the number of entries. -/
theorem vote_click_handler_skips_unparsable_index :
    reportedCounters
        (samplePanelSelected.vote_click_handler sampleDecls sampleServices 0
          [sampleEntryBadIndex] "yes" StandardButton.Yes 1715126460 1715126460).effects
      = some (0, 0) ∧
    [sampleEntryBadIndex].length = 1 ∧
    sampleServices.ParseInt32 sampleEntryBadIndex.outputIndex = none := by
  decide

/-- C3: without a selected proposal, or when the confirmation box returns
anything but Yes, the handler leaves the widget (so `nLastUpdate`, the label
and the table model) and the backend as they were, signs and relays nothing and
shows no result dialog; without a selection it does not even ask. -/
theorem vote_click_handler_needs_confirmation {W : Type} (K : Decls) (S : Services W)
    (self : ProposalList) (w : W) (entries : List CMasternodeEntry) (voteString : String)
    (answer : StandardButton) (t1 t2 : Int)
    (h : self.selectedRows = [] ∨ answer ≠ StandardButton.Yes) :
    (self.vote_click_handler K S w entries voteString answer t1 t2).panel = self ∧
    (self.vote_click_handler K S w entries voteString answer t1 t2).world = w ∧
    (∀ e ∈ (self.vote_click_handler K S w entries voteString answer t1 t2).effects,
      e.isSign = false ∧ e.isRelay = false ∧ e.isInformation = false) ∧
    (self.vote_click_handler K S w entries voteString answer t1 t2).panel.nLastUpdate
      = self.nLastUpdate ∧
    (self.vote_click_handler K S w entries voteString answer t1 t2).panel.tableModelRefreshes
      = self.tableModelRefreshes ∧
    (self.selectedRows = [] →
      (self.vote_click_handler K S w entries voteString answer t1 t2).effects = []) := by
  unfold vote_click_handler
  by_cases hsel : self.hasSelectionModel = false
  · simp [hsel]
  · simp only [hsel, if_false]
    cases hrows : self.selectedRows with
    | nil => simp
    | cons row rest =>
      have hans : answer ≠ StandardButton.Yes := by
        rcases h with h | h
        · rw [hrows] at h; cases h
        · exact h
      simp [hans, Effect.isSign, Effect.isRelay, Effect.isInformation]

theorem vote_click_handler_needs_confirmation_witness :
    (samplePanelSelected.vote_click_handler sampleDecls sampleServices 0 [sampleEntry] "yes"
        StandardButton.Cancel 1715126460 1715126460).panel = samplePanelSelected ∧
    (samplePanelSelected.vote_click_handler sampleDecls sampleServices 0 [sampleEntry] "yes"
        StandardButton.Cancel 1715126460 1715126460).world = 0 ∧
    (∀ e ∈ (samplePanelSelected.vote_click_handler sampleDecls sampleServices 0 [sampleEntry]
        "yes" StandardButton.Cancel 1715126460 1715126460).effects,
      e.isSign = false ∧ e.isRelay = false ∧ e.isInformation = false) ∧
    (samplePanelSelected.vote_click_handler sampleDecls sampleServices 0 [sampleEntry] "yes"
        StandardButton.Cancel 1715126460 1715126460).panel.nLastUpdate
      = samplePanelSelected.nLastUpdate ∧
    (samplePanelSelected.vote_click_handler sampleDecls sampleServices 0 [sampleEntry] "yes"
        StandardButton.Cancel 1715126460 1715126460).panel.tableModelRefreshes
      = samplePanelSelected.tableModelRefreshes ∧
    (samplePanelSelected.selectedRows = [] →
      (samplePanelSelected.vote_click_handler sampleDecls sampleServices 0 [sampleEntry] "yes"
        StandardButton.Cancel 1715126460 1715126460).effects = []) :=
  vote_click_handler_needs_confirmation sampleDecls sampleServices samplePanelSelected 0
    [sampleEntry] "yes" StandardButton.Cancel 1715126460 1715126460 (Or.inr (by decide))

/-! ## Claims about `refreshProposals` -/

theorem wrapInt64_of_isInt64 (x : Int) (h : isInt64 x) : wrapInt64 x = x := by
  unfold isInt64 at h
  unfold wrapInt64
  omega

/-- C4: `refreshProposals(force)` refreshes the table model exactly when `force`
is set or at least `PROPOSALLIST_UPDATE_SECONDS` have passed since
`nLastUpdate`; a refresh sets `nLastUpdate` to the current time and the label
to 0 seconds, no refresh leaves `nLastUpdate` alone; so an unforced call never
refreshes earlier than `PROPOSALLIST_UPDATE_SECONDS` after the previous one.
The subtraction and the addition of line 250 are taken not to overflow. -/
theorem refreshProposals_due (K : Decls) (self : ProposalList) (force : Bool) (t1 t2 : Int)
    (h1 : isInt64 (self.nLastUpdate - t1))
    (h2 : isInt64 (self.nLastUpdate - t1 + K.PROPOSALLIST_UPDATE_SECONDS)) :
    ((self.refreshProposals K force t1 t2).tableModelRefreshes = self.tableModelRefreshes + 1
        ↔ (force = true ∨ t1 - self.nLastUpdate ≥ K.PROPOSALLIST_UPDATE_SECONDS)) ∧
    ((self.refreshProposals K force t1 t2).tableModelRefreshes = self.tableModelRefreshes + 1 →
      (self.refreshProposals K force t1 t2).nLastUpdate = t2 ∧
      (self.refreshProposals K force t1 t2).secondsLabel
        = "List will be updated in 0 second(s)") ∧
    ((self.refreshProposals K force t1 t2).tableModelRefreshes ≠ self.tableModelRefreshes + 1 →
      (self.refreshProposals K force t1 t2).tableModelRefreshes = self.tableModelRefreshes ∧
      (self.refreshProposals K force t1 t2).nLastUpdate = self.nLastUpdate) ∧
    (force = false →
      (self.refreshProposals K force t1 t2).tableModelRefreshes = self.tableModelRefreshes + 1 →
      self.nLastUpdate + K.PROPOSALLIST_UPDATE_SECONDS ≤ t1) := by
  unfold refreshProposals
  rw [wrapInt64_of_isInt64 _ h1, wrapInt64_of_isInt64 _ h2]
  by_cases hc : self.nLastUpdate - t1 + K.PROPOSALLIST_UPDATE_SECONDS > 0 ∧ force = false
  · rw [if_pos hc]
    obtain ⟨hc1, hc2⟩ := hc
    subst hc2
    refine ⟨⟨fun h => ?_, fun h => ?_⟩, fun h => ?_, fun _ => ⟨rfl, rfl⟩, fun _ h => ?_⟩
    · simp at h
    · rcases h with h | h
      · cases h
      · omega
    · simp at h
    · simp at h
  · rw [if_neg hc]
    have hdue : force = true ∨ t1 - self.nLastUpdate ≥ K.PROPOSALLIST_UPDATE_SECONDS := by
      cases force
      · right
        have : ¬ (self.nLastUpdate - t1 + K.PROPOSALLIST_UPDATE_SECONDS > 0) :=
          fun h => hc ⟨h, rfl⟩
        omega
      · left; rfl
    refine ⟨⟨fun _ => hdue, fun _ => rfl⟩, fun _ => ⟨rfl, rfl⟩, fun h => absurd rfl h,
      fun hf _ => ?_⟩
    rcases hdue with h | h
    · rw [hf] at h; cases h
    · omega

theorem refreshProposals_due_witness :
    ((samplePanel.refreshProposals sampleDecls false 1715126460 1715126461).tableModelRefreshes
        = samplePanel.tableModelRefreshes + 1
        ↔ (false = true ∨
            1715126460 - samplePanel.nLastUpdate ≥ sampleDecls.PROPOSALLIST_UPDATE_SECONDS)) ∧
    ((samplePanel.refreshProposals sampleDecls false 1715126460 1715126461).tableModelRefreshes
        = samplePanel.tableModelRefreshes + 1 →
      (samplePanel.refreshProposals sampleDecls false 1715126460 1715126461).nLastUpdate
        = 1715126461 ∧
      (samplePanel.refreshProposals sampleDecls false 1715126460 1715126461).secondsLabel
        = "List will be updated in 0 second(s)") ∧
    ((samplePanel.refreshProposals sampleDecls false 1715126460 1715126461).tableModelRefreshes
        ≠ samplePanel.tableModelRefreshes + 1 →
      (samplePanel.refreshProposals sampleDecls false 1715126460 1715126461).tableModelRefreshes
        = samplePanel.tableModelRefreshes ∧
      (samplePanel.refreshProposals sampleDecls false 1715126460 1715126461).nLastUpdate
        = samplePanel.nLastUpdate) ∧
    (false = false →
      (samplePanel.refreshProposals sampleDecls false 1715126460 1715126461).tableModelRefreshes
        = samplePanel.tableModelRefreshes + 1 →
      samplePanel.nLastUpdate + sampleDecls.PROPOSALLIST_UPDATE_SECONDS ≤ 1715126460) :=
  refreshProposals_due sampleDecls samplePanel false 1715126460 1715126461
    (by decide) (by decide)



/-! ## Claims about the settings store -/

/-- The end date editor is initialised without looking at the key
`"proposalEndDate"` that `endDateRangeChanged` and `chooseEndDate` write: line
575 reads the key `"proposlEndDate"`. -/
theorem createEndDateRangeWidget_ignores_persisted (self : ProposalList) (v : QVariant)
    (current : QDate) :
    (createEndDateRangeWidget
        { self with settings := self.settings.setValue "proposalEndDate" v }
        current).proposalEndDate
      = (createEndDateRangeWidget self current).proposalEndDate := by
  have hk : ("proposlEndDate" = "proposalEndDate") = False := by decide
  simp [createEndDateRangeWidget, QSettings.valueOr, QSettings.setValue, hk]

/-- C5 (the code departs from it): after the end date 2020-01-15 was persisted
by `endDateRangeChanged`, `createEndDateRangeWidget` on the next day's start-up
initialises the end date editor to the current date, not to the persisted one;
the start date editor does get the persisted start date back. -/
theorem createEndDateRangeWidget_forgets_end_date :
    samplePanelEndEdited.settings.value "proposalEndDate" = QVariant.string "2020-01-15" ∧
    (createEndDateRangeWidget samplePanelEndEdited (QDate.ofYMD 2024 5 9)).proposalEndDate.date
      = QDate.ofYMD 2024 5 9 ∧
    (createEndDateRangeWidget samplePanelEndEdited (QDate.ofYMD 2024 5 9)).proposalEndDate.date
      ≠ QDate.ofYMD 2020 1 15 ∧
    (createStartDateRangeWidget samplePanelStartEdited
        (QDate.ofYMD 2024 5 9)).proposalStartDate.date
      = QDate.ofYMD 2020 1 15 := by
  decide

/-! ## Claims about the constructor -/

theorem itemData_zero (c : QComboBox) : (c.itemData 0).toInt = 0 := rfl

/-- `chooseStartDate(0)` selects the mode All. -/
theorem chooseStartDate_zero (K : Decls) (self : ProposalList) (current : QDate)
    (proxy : ProposalFilterProxy) (h : self.proposalProxyModel = some proxy) :
    chooseStartDate K self current 0 =
      { self with
        startDateRangeWidgetVisible := false
        proposalProxyModel := some { proxy with startDate := K.MIN_DATE }
        settings := self.settings.setValue "proposalStartDateIndex" (QVariant.int 0) } := by
  have hr : ((0 : Int) = DateEnum.Range.toInt) = False := by decide
  simp [chooseStartDate, h, itemData_zero, DateEnum.ofInt, setProposalStart, hr]

/-- `chooseEndDate(0)` selects the mode All. -/
theorem chooseEndDate_zero (K : Decls) (self : ProposalList) (current : QDate)
    (proxy : ProposalFilterProxy) (h : self.proposalProxyModel = some proxy) :
    chooseEndDate K self current 0 =
      { self with
        endDateRangeWidgetVisible := false
        proposalProxyModel := some { proxy with endDate := K.MAX_DATE }
        settings := self.settings.setValue "proposalEndDateIndex" (QVariant.int 0) } := by
  have hr : ((0 : Int) = DateEnum.Range.toInt) = False := by decide
  simp [chooseEndDate, h, itemData_zero, DateEnum.ofInt, setProposalEnd, hr]

/-- C6 (the code departs from it): whatever mode indexes `i` and `j` were
stored by `chooseStartDate(i)` and `chooseEndDate(j)`, when the settings hold
no number under `"proposalStartDate"` and `"proposalEndDate"` (these keys hold
dates, or nothing), the constructor shows `i` and `j` in the combo boxes but
applies mode 0 (All) to the filter and overwrites both stored indexes with 0:
lines 233-234 read the date keys instead of the index keys. -/
theorem create_resets_date_modes (K : Decls) (settings : QSettings)
    (proxy : ProposalFilterProxy) (current : QDate) (now : Int) (i j : Int)
    (hi : 0 ≤ i ∧ i ≤ 6) (hj : 0 ≤ j ∧ j ≤ 6)
    (hsi : settings.value "proposalStartDateIndex" = QVariant.int i)
    (hsj : settings.value "proposalEndDateIndex" = QVariant.int j)
    (hds : (settings.value "proposalStartDate").toInt = 0)
    (hde : (settings.value "proposalEndDate").toInt = 0) :
    (create K settings proxy current now).startDateWidget.currentIndex = i ∧
    (create K settings proxy current now).endDateWidget.currentIndex = j ∧
    (create K settings proxy current now).settings.value "proposalStartDateIndex"
      = QVariant.int 0 ∧
    (create K settings proxy current now).settings.value "proposalEndDateIndex"
      = QVariant.int 0 ∧
    (create K settings proxy current now).proposalProxyModel.map (fun p => p.startDate)
      = some K.MIN_DATE ∧
    (create K settings proxy current now).proposalProxyModel.map (fun p => p.endDate)
      = some K.MAX_DATE := by
  have hlen : (dateItems.length : Int) = 7 := by decide
  have hk1 : ("proposalEndDate" = "proposalStartDateIndex") = False := by decide
  have hk2 : ("proposalStartDateIndex" = "proposalEndDateIndex") = False := by decide
  have hde' : (QSettings.value (QSettings.setValue settings "proposalStartDateIndex"
      (QVariant.int 0)) "proposalEndDate").toInt = 0 := by
    have : QSettings.value (QSettings.setValue settings "proposalStartDateIndex"
        (QVariant.int 0)) "proposalEndDate" = settings.value "proposalEndDate" := by
      simp [QSettings.value, QSettings.setValue, hk1]
    rw [this, hde]
  have hi' : 0 ≤ i ∧ i < 7 := by omega
  have hj' : 0 ≤ j ∧ j < 7 := by omega
  unfold create
  dsimp only [createStartDateRangeWidget, createEndDateRangeWidget]
  rw [hds, chooseStartDate_zero K _ current proxy rfl]
  dsimp only
  rw [hde', chooseEndDate_zero K _ current _ rfl]
  dsimp only
  rw [hsi, hsj]
  simp [QVariant.toInt, QComboBox.setCurrentIndex, hlen, hi', hj', QSettings.value,
    QSettings.setValue, hk2]

theorem create_resets_date_modes_witness :
    (create sampleDecls sampleSettingsWithModes sampleProxy sampleToday
        1715212800).startDateWidget.currentIndex = 2 ∧
    (create sampleDecls sampleSettingsWithModes sampleProxy sampleToday
        1715212800).endDateWidget.currentIndex = 3 ∧
    (create sampleDecls sampleSettingsWithModes sampleProxy sampleToday
        1715212800).settings.value "proposalStartDateIndex" = QVariant.int 0 ∧
    (create sampleDecls sampleSettingsWithModes sampleProxy sampleToday
        1715212800).settings.value "proposalEndDateIndex" = QVariant.int 0 ∧
    (create sampleDecls sampleSettingsWithModes sampleProxy sampleToday
        1715212800).proposalProxyModel.map (fun p => p.startDate)
      = some sampleDecls.MIN_DATE ∧
    (create sampleDecls sampleSettingsWithModes sampleProxy sampleToday
        1715212800).proposalProxyModel.map (fun p => p.endDate)
      = some sampleDecls.MAX_DATE :=
  create_resets_date_modes sampleDecls sampleSettingsWithModes sampleProxy sampleToday
    1715212800 2 3 (by decide) (by decide) (by decide) (by decide) (by decide) (by decide)



/-! ## Claims about the date presets -/

namespace QDate

/-- Year, month and day of the first day of a month, read back from its
`QDate`. -/
theorem fields_of_first (y m : Int) (hy : y ≠ 0) (hm0 : 1 ≤ m) (hm1 : m ≤ 12)
    (hlo : minJd ≤ julianDayFromDate y m 1) (hhi : julianDayFromDate y m 1 ≤ maxJd) :
    (⟨julianDayFromDate y m 1⟩ : QDate).year = y ∧
      (⟨julianDayFromDate y m 1⟩ : QDate).month = m ∧
      (⟨julianDayFromDate y m 1⟩ : QDate).day = 1 := by
  have hv : (⟨julianDayFromDate y m 1⟩ : QDate).isValid = true := by
    rw [isValid_iff]; exact ⟨hlo, hhi⟩
  simp [year, month, day, isNull, hv, getDateFromJulianDay_first y m hy hm0 hm1]

/-- Start of the week: `current.addDays(-(current.dayOfWeek()-1))` is a Monday,
not after `current` and at most 6 days before it. -/
theorem startOfWeek_spec (current : QDate) (hv : current.isValid = true)
    (hlo : minJd + 6 ≤ current.jd) :
    (current.addDays (-(current.dayOfWeek - 1))).dayOfWeek = 1 ∧
      (current.addDays (-(current.dayOfWeek - 1))).jd ≤ current.jd ∧
      current.jd - (current.addDays (-(current.dayOfWeek - 1))).jd ≤ 6 := by
  have hdow := dayOfWeek_eq current hv
  have hr := (isValid_iff current).mp hv
  have hadd : current.addDays (-(current.dayOfWeek - 1)) = ⟨current.jd - current.jd % 7⟩ := by
    unfold addDays fromJulianDay isNull
    rw [hv, hdow]
    have h1 : minJd ≤ current.jd + -(current.jd % 7 + 1 - 1) ∧
        current.jd + -(current.jd % 7 + 1 - 1) ≤ maxJd := by omega
    simp only [Bool.not_true, Bool.false_eq_true, if_false, h1, and_self, if_true]
    congr 1
    omega
  have hv2 : (⟨current.jd - current.jd % 7⟩ : QDate).isValid = true := by
    rw [isValid_iff]; dsimp only; omega
  rw [hadd, dayOfWeek_eq _ hv2]
  dsimp only
  omega

/-- The three month-aligned presets on a valid date that is not in the first
year of the range of `QDate`. -/
theorem month_presets (current : QDate) (hv : current.isValid = true)
    (hlo : minJd + 366 ≤ current.jd) :
    current.year ≠ 0 ∧ 1 ≤ current.month ∧ current.month ≤ 12 ∧
    ofYMD current.year current.month 1
      = ⟨julianDayFromDate current.year current.month 1⟩ ∧
    ofYMD current.year 1 1 = ⟨julianDayFromDate current.year 1 1⟩ ∧
    (ofYMD current.year current.month 1).addMonths (-1)
      = ⟨julianDayFromDate
          (if current.month = 1 then (if current.year = 1 then -1 else current.year - 1)
            else current.year)
          (if current.month = 1 then 12 else current.month - 1) 1⟩ ∧
    julianDayFromDate current.year current.month 1 ≤ current.jd ∧
    current.jd - julianDayFromDate current.year current.month 1 ≤ 30 ∧
    julianDayFromDate current.year 1 1 ≤ julianDayFromDate current.year current.month 1 ∧
    julianDayFromDate current.year current.month 1 - julianDayFromDate current.year 1 1
      ≤ 335 ∧
    julianDayFromDate
        (if current.month = 1 then (if current.year = 1 then -1 else current.year - 1)
          else current.year)
        (if current.month = 1 then 12 else current.month - 1) 1
      < julianDayFromDate current.year current.month 1 ∧
    julianDayFromDate current.year current.month 1 -
      julianDayFromDate
        (if current.month = 1 then (if current.year = 1 then -1 else current.year - 1)
          else current.year)
        (if current.month = 1 then 12 else current.month - 1) 1 ≤ 31 := by
  obtain ⟨hy, hm0, hm1, hd0, hd1, hfirst⟩ := fields_of_valid current hv
  have hr := (isValid_iff current).mp hv
  have hjan := julianDayFromDate_january current.year current.month hm0 hm1
  have hprev := julianDayFromDate_lastMonth current.year current.month hy hm0 hm1
  refine ⟨hy, hm0, hm1, ofYMD_first _ _ hy hm0 hm1, ofYMD_first _ _ hy (by omega) (by omega),
    addMonths_minus_one_first _ _ hy hm0 hm1 (by omega) (by omega),
    by omega, by omega, hjan.1, hjan.2, hprev.1, hprev.2⟩

end QDate

theorem itemData_preset (c : QComboBox) :
    (c.itemData 1).toInt = 1 ∧ (c.itemData 2).toInt = 2 ∧ (c.itemData 3).toInt = 3 ∧
      (c.itemData 4).toInt = 4 ∧ (c.itemData 5).toInt = 5 ∧ (c.itemData 6).toInt = 6 :=
  ⟨rfl, rfl, rfl, rfl, rfl, rfl⟩

/-- The start bound each index of the start combo box applies. -/
theorem chooseStartDate_bound (K : Decls) (self : ProposalList) (current : QDate)
    (proxy : ProposalFilterProxy) (h : self.proposalProxyModel = some proxy) :
    (chooseStartDate K self current 0).proposalProxyModel.map (fun p => p.startDate)
      = some K.MIN_DATE ∧
    (chooseStartDate K self current 1).proposalProxyModel.map (fun p => p.startDate)
      = some (QDateTime.ofDate current) ∧
    (chooseStartDate K self current 2).proposalProxyModel.map (fun p => p.startDate)
      = some (QDateTime.ofDate (current.addDays (-(current.dayOfWeek - 1)))) ∧
    (chooseStartDate K self current 3).proposalProxyModel.map (fun p => p.startDate)
      = some (QDateTime.ofDate (QDate.ofYMD current.year current.month 1)) ∧
    (chooseStartDate K self current 4).proposalProxyModel.map (fun p => p.startDate)
      = some (QDateTime.ofDate ((QDate.ofYMD current.year current.month 1).addMonths (-1))) ∧
    (chooseStartDate K self current 5).proposalProxyModel.map (fun p => p.startDate)
      = some (QDateTime.ofDate (QDate.ofYMD current.year 1 1)) ∧
    (chooseStartDate K self current 6).proposalProxyModel.map (fun p => p.startDate)
      = some (QDateTime.ofDate self.proposalStartDate.date) := by
  obtain ⟨h1, h2, h3, h4, h5, h6⟩ := itemData_preset self.startDateWidget
  have hr : ∀ n : Int, n ≠ 6 → (n = DateEnum.Range.toInt) = False := by
    intro n hn; simp [DateEnum.toInt, hn]
  refine ⟨?_, ?_, ?_, ?_, ?_, ?_, ?_⟩
  · rw [chooseStartDate_zero K self current proxy h]; rfl
  · simp [chooseStartDate, h, h1, DateEnum.ofInt, setProposalStart, hr]
  · simp [chooseStartDate, h, h2, DateEnum.ofInt, setProposalStart, hr]
  · simp [chooseStartDate, h, h3, DateEnum.ofInt, setProposalStart, hr]
  · simp [chooseStartDate, h, h4, DateEnum.ofInt, setProposalStart, hr]
  · simp [chooseStartDate, h, h5, DateEnum.ofInt, setProposalStart, hr]
  · simp [chooseStartDate, h, h6, DateEnum.ofInt, startDateRangeChanged, DateEnum.toInt]

/-- The end bound each index of the end combo box applies. -/
theorem chooseEndDate_bound (K : Decls) (self : ProposalList) (current : QDate)
    (proxy : ProposalFilterProxy) (h : self.proposalProxyModel = some proxy) :
    (chooseEndDate K self current 0).proposalProxyModel.map (fun p => p.endDate)
      = some K.MAX_DATE ∧
    (chooseEndDate K self current 1).proposalProxyModel.map (fun p => p.endDate)
      = some (QDateTime.ofDate current) ∧
    (chooseEndDate K self current 2).proposalProxyModel.map (fun p => p.endDate)
      = some (QDateTime.ofDate (current.addDays (-(current.dayOfWeek - 1)))) ∧
    (chooseEndDate K self current 3).proposalProxyModel.map (fun p => p.endDate)
      = some (QDateTime.ofDate (QDate.ofYMD current.year current.month 1)) ∧
    (chooseEndDate K self current 4).proposalProxyModel.map (fun p => p.endDate)
      = some (QDateTime.ofDate ((QDate.ofYMD current.year current.month 1).addMonths (-1))) ∧
    (chooseEndDate K self current 5).proposalProxyModel.map (fun p => p.endDate)
      = some (QDateTime.ofDate (QDate.ofYMD current.year 1 1)) ∧
    (chooseEndDate K self current 6).proposalProxyModel.map (fun p => p.endDate)
      = some (QDateTime.ofDate self.proposalEndDate.date) := by
  obtain ⟨h1, h2, h3, h4, h5, h6⟩ := itemData_preset self.endDateWidget
  have hr : ∀ n : Int, n ≠ 6 → (n = DateEnum.Range.toInt) = False := by
    intro n hn; simp [DateEnum.toInt, hn]
  refine ⟨?_, ?_, ?_, ?_, ?_, ?_, ?_⟩
  · rw [chooseEndDate_zero K self current proxy h]; rfl
  · simp [chooseEndDate, h, h1, DateEnum.ofInt, setProposalEnd, hr]
  · simp [chooseEndDate, h, h2, DateEnum.ofInt, setProposalEnd, hr]
  · simp [chooseEndDate, h, h3, DateEnum.ofInt, setProposalEnd, hr]
  · simp [chooseEndDate, h, h4, DateEnum.ofInt, setProposalEnd, hr]
  · simp [chooseEndDate, h, h5, DateEnum.ofInt, setProposalEnd, hr]
  · simp [chooseEndDate, h, h6, DateEnum.ofInt, endDateRangeChanged, DateEnum.toInt]

/-- C7: for a current date at least six days into the range of `QDate`, the
"This week" preset of `chooseStartDate` sets the start bound of the filter to
midnight of `current.addDays(-(dayOfWeek-1))`, and that date has day-of-week 1
(Monday), is not after the current date and is at most 6 days before it. -/
theorem chooseStartDate_thisWeek (K : Decls) (self : ProposalList) (current : QDate)
    (proxy : ProposalFilterProxy) (h : self.proposalProxyModel = some proxy)
    (hv : current.isValid = true) (hlo : QDate.minJd + 6 ≤ current.jd) :
    (chooseStartDate K self current 2).proposalProxyModel.map (fun p => p.startDate)
      = some { date := current.addDays (-(current.dayOfWeek - 1)), msecs := 0 } ∧
    (current.addDays (-(current.dayOfWeek - 1))).dayOfWeek = 1 ∧
    (current.addDays (-(current.dayOfWeek - 1))).jd ≤ current.jd ∧
    current.jd - (current.addDays (-(current.dayOfWeek - 1))).jd ≤ 6 :=
  ⟨(chooseStartDate_bound K self current proxy h).2.2.1, QDate.startOfWeek_spec current hv hlo⟩

theorem chooseStartDate_thisWeek_witness :
    (chooseStartDate sampleDecls samplePanel sampleToday 2).proposalProxyModel.map
        (fun p => p.startDate)
      = some { date := sampleToday.addDays (-(sampleToday.dayOfWeek - 1)), msecs := 0 } ∧
    (sampleToday.addDays (-(sampleToday.dayOfWeek - 1))).dayOfWeek = 1 ∧
    (sampleToday.addDays (-(sampleToday.dayOfWeek - 1))).jd ≤ sampleToday.jd ∧
    sampleToday.jd - (sampleToday.addDays (-(sampleToday.dayOfWeek - 1))).jd ≤ 6 :=
  chooseStartDate_thisWeek sampleDecls samplePanel sampleToday
    sampleProxy
    (by decide) (by decide) (by decide)

/-- The dates of the four period presets on a valid current date that is not in
the first year of the range of `QDate`: the start of the week is a Monday, not
after the current date and at most 6 days before it; the first of the current
month, the first of the month before and the first of January are valid first
days of a month, in that order from the current date backwards. -/
theorem preset_dates_first_days (current : QDate) (hv : current.isValid = true)
    (hlo : QDate.minJd + 366 ≤ current.jd) :
    ((current.addDays (-(current.dayOfWeek - 1))).dayOfWeek = 1 ∧
      (current.addDays (-(current.dayOfWeek - 1))).jd ≤ current.jd ∧
      current.jd - (current.addDays (-(current.dayOfWeek - 1))).jd ≤ 6) ∧
    ((QDate.ofYMD current.year current.month 1).isValid = true ∧
      (QDate.ofYMD current.year current.month 1).day = 1 ∧
      (QDate.ofYMD current.year current.month 1).month = current.month ∧
      (QDate.ofYMD current.year current.month 1).year = current.year ∧
      (QDate.ofYMD current.year current.month 1).jd ≤ current.jd ∧
      current.jd - (QDate.ofYMD current.year current.month 1).jd ≤ 30) ∧
    (((QDate.ofYMD current.year current.month 1).addMonths (-1)).isValid = true ∧
      ((QDate.ofYMD current.year current.month 1).addMonths (-1)).day = 1 ∧
      ((QDate.ofYMD current.year current.month 1).addMonths (-1)).month
        = (if current.month = 1 then 12 else current.month - 1) ∧
      ((QDate.ofYMD current.year current.month 1).addMonths (-1)).year
        = (if current.month = 1 then (if current.year = 1 then -1 else current.year - 1)
            else current.year) ∧
      ((QDate.ofYMD current.year current.month 1).addMonths (-1)).jd
        < (QDate.ofYMD current.year current.month 1).jd) ∧
    ((QDate.ofYMD current.year 1 1).isValid = true ∧
      (QDate.ofYMD current.year 1 1).day = 1 ∧
      (QDate.ofYMD current.year 1 1).month = 1 ∧
      (QDate.ofYMD current.year 1 1).year = current.year ∧
      (QDate.ofYMD current.year 1 1).jd ≤ (QDate.ofYMD current.year current.month 1).jd) := by
  obtain ⟨hy, hm0, hm1, etm, ety, elm, htm1, htm2, hty1, hty2, hlm1, hlm2⟩ :=
    QDate.month_presets current hv hlo
  have hweek := QDate.startOfWeek_spec current hv (by omega)
  have hr := (QDate.isValid_iff current).mp hv
  obtain ⟨y2, hy2⟩ : ∃ y2 : Int, y2 =
      (if current.month = 1 then (if current.year = 1 then -1 else current.year - 1)
        else current.year) := ⟨_, rfl⟩
  obtain ⟨m2, hm2⟩ : ∃ m2 : Int, m2 = (if current.month = 1 then 12 else current.month - 1) :=
    ⟨_, rfl⟩
  rw [← hy2, ← hm2] at elm hlm1 hlm2
  have hy2n : y2 ≠ 0 := by rw [hy2]; split <;> [split <;> omega; exact hy]
  have hm2r : 1 ≤ m2 ∧ m2 ≤ 12 := by rw [hm2]; split <;> omega
  have ftm := QDate.fields_of_first current.year current.month hy hm0 hm1 (by omega) (by omega)
  have fty := QDate.fields_of_first current.year 1 hy (by omega) (by omega) (by omega) (by omega)
  have flm := QDate.fields_of_first y2 m2 hy2n hm2r.1 hm2r.2 (by omega) (by omega)
  rw [← hy2, ← hm2, elm, etm, ety]
  refine ⟨hweek, ⟨?_, ftm.2.2, ftm.2.1, ftm.1, htm1, htm2⟩, ⟨?_, flm.2.2, flm.2.1, flm.1, hlm1⟩,
    ⟨?_, fty.2.2, fty.2.1, fty.1, hty1⟩⟩
  · rw [QDate.isValid_iff]; dsimp only; omega
  · rw [QDate.isValid_iff]; dsimp only; omega
  · rw [QDate.isValid_iff]; dsimp only; omega

/-- C10: for each preset Today, This week, This month, Last month and This year
`chooseEndDate` passes to `setProposalEnd` the very instant `chooseStartDate`
passes to `setProposalStart`, and that instant is the first of the period:
midnight (0 ms) of the current date, of the start of the week, of the first of
the current month, of the first of the month before and of the first of
January.  For All the start bound is `MIN_DATE` and the end bound is `MAX_DATE`;
for Range each bound is midnight of the date in its own editor.  On a valid
current date past the first year of the range of `QDate` these dates are a
Monday at most 6 days back and valid first days of a month not after the
current date, so the end bound is never past midnight of the current date. -/
theorem chooseEndDate_same_instant (K : Decls) (self : ProposalList) (current : QDate)
    (proxy : ProposalFilterProxy) (h : self.proposalProxyModel = some proxy) :
    (∀ i : Int, 1 ≤ i → i ≤ 5 →
      (chooseEndDate K self current i).proposalProxyModel.map (fun p => p.endDate)
        = (chooseStartDate K self current i).proposalProxyModel.map (fun p => p.startDate)) ∧
    ((chooseStartDate K self current 1).proposalProxyModel.map (fun p => p.startDate)
        = some { date := current, msecs := 0 } ∧
      (chooseEndDate K self current 1).proposalProxyModel.map (fun p => p.endDate)
        = some { date := current, msecs := 0 }) ∧
    ((chooseStartDate K self current 2).proposalProxyModel.map (fun p => p.startDate)
        = some { date := current.addDays (-(current.dayOfWeek - 1)), msecs := 0 } ∧
      (chooseEndDate K self current 2).proposalProxyModel.map (fun p => p.endDate)
        = some { date := current.addDays (-(current.dayOfWeek - 1)), msecs := 0 }) ∧
    ((chooseStartDate K self current 3).proposalProxyModel.map (fun p => p.startDate)
        = some { date := QDate.ofYMD current.year current.month 1, msecs := 0 } ∧
      (chooseEndDate K self current 3).proposalProxyModel.map (fun p => p.endDate)
        = some { date := QDate.ofYMD current.year current.month 1, msecs := 0 }) ∧
    ((chooseStartDate K self current 4).proposalProxyModel.map (fun p => p.startDate)
        = some { date := (QDate.ofYMD current.year current.month 1).addMonths (-1)
                 msecs := 0 } ∧
      (chooseEndDate K self current 4).proposalProxyModel.map (fun p => p.endDate)
        = some { date := (QDate.ofYMD current.year current.month 1).addMonths (-1)
                 msecs := 0 }) ∧
    ((chooseStartDate K self current 5).proposalProxyModel.map (fun p => p.startDate)
        = some { date := QDate.ofYMD current.year 1 1, msecs := 0 } ∧
      (chooseEndDate K self current 5).proposalProxyModel.map (fun p => p.endDate)
        = some { date := QDate.ofYMD current.year 1 1, msecs := 0 }) ∧
    ((chooseStartDate K self current 0).proposalProxyModel.map (fun p => p.startDate)
        = some K.MIN_DATE ∧
      (chooseEndDate K self current 0).proposalProxyModel.map (fun p => p.endDate)
        = some K.MAX_DATE) ∧
    ((chooseStartDate K self current 6).proposalProxyModel.map (fun p => p.startDate)
        = some { date := self.proposalStartDate.date, msecs := 0 } ∧
      (chooseEndDate K self current 6).proposalProxyModel.map (fun p => p.endDate)
        = some { date := self.proposalEndDate.date, msecs := 0 }) ∧
    (current.isValid = true → QDate.minJd + 366 ≤ current.jd →
      ((current.addDays (-(current.dayOfWeek - 1))).dayOfWeek = 1 ∧
        (current.addDays (-(current.dayOfWeek - 1))).jd ≤ current.jd ∧
        current.jd - (current.addDays (-(current.dayOfWeek - 1))).jd ≤ 6) ∧
      ((QDate.ofYMD current.year current.month 1).isValid = true ∧
        (QDate.ofYMD current.year current.month 1).day = 1 ∧
        (QDate.ofYMD current.year current.month 1).month = current.month ∧
        (QDate.ofYMD current.year current.month 1).year = current.year ∧
        (QDate.ofYMD current.year current.month 1).jd ≤ current.jd ∧
        current.jd - (QDate.ofYMD current.year current.month 1).jd ≤ 30) ∧
      (((QDate.ofYMD current.year current.month 1).addMonths (-1)).isValid = true ∧
        ((QDate.ofYMD current.year current.month 1).addMonths (-1)).day = 1 ∧
        ((QDate.ofYMD current.year current.month 1).addMonths (-1)).month
          = (if current.month = 1 then 12 else current.month - 1) ∧
        ((QDate.ofYMD current.year current.month 1).addMonths (-1)).year
          = (if current.month = 1 then (if current.year = 1 then -1 else current.year - 1)
              else current.year) ∧
        ((QDate.ofYMD current.year current.month 1).addMonths (-1)).jd
          < (QDate.ofYMD current.year current.month 1).jd) ∧
      ((QDate.ofYMD current.year 1 1).isValid = true ∧
        (QDate.ofYMD current.year 1 1).day = 1 ∧
        (QDate.ofYMD current.year 1 1).month = 1 ∧
        (QDate.ofYMD current.year 1 1).year = current.year ∧
        (QDate.ofYMD current.year 1 1).jd ≤ (QDate.ofYMD current.year current.month 1).jd) ∧
      (∀ i : Int, 1 ≤ i → i ≤ 5 →
        ∃ t : QDateTime,
          (chooseEndDate K self current i).proposalProxyModel.map (fun p => p.endDate)
            = some t ∧
          t.msecs = 0 ∧ t.date.isValid = true ∧ t.date.jd ≤ current.jd)) := by
  obtain ⟨s0, s1, s2, s3, s4, s5, s6⟩ := chooseStartDate_bound K self current proxy h
  obtain ⟨e0, e1, e2, e3, e4, e5, e6⟩ := chooseEndDate_bound K self current proxy h
  refine ⟨?_, ⟨s1, e1⟩, ⟨s2, e2⟩, ⟨s3, e3⟩, ⟨s4, e4⟩, ⟨s5, e5⟩, ⟨s0, e0⟩, ⟨s6, e6⟩, ?_⟩
  · intro i hi0 hi1
    have hi : i = 1 ∨ i = 2 ∨ i = 3 ∨ i = 4 ∨ i = 5 := by omega
    rcases hi with hi | hi | hi | hi | hi <;> subst hi
    · rw [e1, s1]
    · rw [e2, s2]
    · rw [e3, s3]
    · rw [e4, s4]
    · rw [e5, s5]
  · intro hv hlo
    obtain ⟨hw, htm, hlm, hty⟩ := preset_dates_first_days current hv hlo
    refine ⟨hw, htm, hlm, hty, ?_⟩
    have hweekValid : (current.addDays (-(current.dayOfWeek - 1))).isValid = true := by
      have hr := (QDate.isValid_iff current).mp hv
      rw [QDate.isValid_iff]
      exact ⟨by omega, by omega⟩
    intro i hi0 hi1
    have hi : i = 1 ∨ i = 2 ∨ i = 3 ∨ i = 4 ∨ i = 5 := by omega
    rcases hi with hi | hi | hi | hi | hi <;> subst hi
    · exact ⟨_, e1, rfl, hv, le_refl _⟩
    · exact ⟨_, e2, rfl, hweekValid, hw.2.1⟩
    · exact ⟨_, e3, rfl, htm.1, htm.2.2.2.2.1⟩
    · exact ⟨_, e4, rfl, hlm.1, by
        have a := hlm.2.2.2.2
        have b := htm.2.2.2.2.1
        show ((QDate.ofYMD current.year current.month 1).addMonths (-1)).jd ≤ current.jd
        omega⟩
    · exact ⟨_, e5, rfl, hty.1, by
        have a := hty.2.2.2.2
        have b := htm.2.2.2.2.1
        show (QDate.ofYMD current.year 1 1).jd ≤ current.jd
        omega⟩

theorem chooseEndDate_same_instant_witness :
    (chooseEndDate sampleDecls samplePanelEndEdited sampleToday 1).proposalProxyModel.map
        (fun p => p.endDate) = some { date := QDate.ofYMD 2024 5 8, msecs := 0 } ∧
    (chooseEndDate sampleDecls samplePanelEndEdited sampleToday 2).proposalProxyModel.map
        (fun p => p.endDate) = some { date := QDate.ofYMD 2024 5 6, msecs := 0 } ∧
    (chooseEndDate sampleDecls samplePanelEndEdited sampleToday 3).proposalProxyModel.map
        (fun p => p.endDate) = some { date := QDate.ofYMD 2024 5 1, msecs := 0 } ∧
    (chooseEndDate sampleDecls samplePanelEndEdited sampleToday 4).proposalProxyModel.map
        (fun p => p.endDate) = some { date := QDate.ofYMD 2024 4 1, msecs := 0 } ∧
    (chooseEndDate sampleDecls samplePanelEndEdited sampleToday 5).proposalProxyModel.map
        (fun p => p.endDate) = some { date := QDate.ofYMD 2024 1 1, msecs := 0 } ∧
    (chooseStartDate sampleDecls samplePanelEndEdited sampleToday 0).proposalProxyModel.map
        (fun p => p.startDate) = some sampleDecls.MIN_DATE ∧
    (chooseEndDate sampleDecls samplePanelEndEdited sampleToday 0).proposalProxyModel.map
        (fun p => p.endDate) = some sampleDecls.MAX_DATE ∧
    (chooseStartDate sampleDecls samplePanelEndEdited sampleToday 6).proposalProxyModel.map
        (fun p => p.startDate) = some { date := QDate.ofYMD 2024 5 8, msecs := 0 } ∧
    (chooseEndDate sampleDecls samplePanelEndEdited sampleToday 6).proposalProxyModel.map
        (fun p => p.endDate) = some { date := QDate.ofYMD 2020 1 15, msecs := 0 } ∧
    (sampleToday.addDays (-(sampleToday.dayOfWeek - 1))).dayOfWeek = 1 ∧
    (QDate.ofYMD sampleToday.year sampleToday.month 1).day = 1 ∧
    ((QDate.ofYMD sampleToday.year sampleToday.month 1).addMonths (-1)).day = 1 ∧
    ((QDate.ofYMD sampleToday.year sampleToday.month 1).addMonths (-1)).month = 4 ∧
    (QDate.ofYMD sampleToday.year 1 1).day = 1 ∧
    (QDate.ofYMD sampleToday.year 1 1).month = 1 :=
  have t := chooseEndDate_same_instant sampleDecls samplePanelEndEdited sampleToday
    { sampleProxy with endDate := QDateTime.ofDate (QDate.ofYMD 2020 1 15) } (by decide)
  have f := t.2.2.2.2.2.2.2.2 (by decide) (by decide)
  ⟨t.2.1.2, t.2.2.1.2, t.2.2.2.1.2, t.2.2.2.2.1.2, t.2.2.2.2.2.1.2,
    t.2.2.2.2.2.2.1.1, t.2.2.2.2.2.2.1.2, t.2.2.2.2.2.2.2.1.1, t.2.2.2.2.2.2.2.1.2,
    f.1.1, f.2.1.2.1, f.2.2.1.2.1, f.2.2.1.2.2.1, f.2.2.2.1.2.1, f.2.2.2.1.2.2.1⟩

/-- C8: for a valid current date past the first year of the range of `QDate`,
each preset Today .. This year gives `chooseStartDate` a start bound that is not
later than midnight of the current date; the bounds of This month, Last month
and This year are midnight of a first day of a month; Last month is strictly
before This month and is the calendar month before it (December of the previous
year in January, the year before year 1 being year -1); and This year is the
first of January of the current year, not later than This month. -/
theorem chooseStartDate_presets (K : Decls) (self : ProposalList) (current : QDate)
    (proxy : ProposalFilterProxy) (h : self.proposalProxyModel = some proxy)
    (hv : current.isValid = true) (hlo : QDate.minJd + 366 ≤ current.jd) :
    (∀ i : Int, 1 ≤ i → i ≤ 5 →
      ∃ t : QDateTime,
        (chooseStartDate K self current i).proposalProxyModel.map (fun p => p.startDate)
          = some t ∧
        QDateTime.le t (QDateTime.ofDate current)) ∧
    (∃ thisMonth lastMonth thisYear : QDate,
      (chooseStartDate K self current 3).proposalProxyModel.map (fun p => p.startDate)
        = some { date := thisMonth, msecs := 0 } ∧
      (chooseStartDate K self current 4).proposalProxyModel.map (fun p => p.startDate)
        = some { date := lastMonth, msecs := 0 } ∧
      (chooseStartDate K self current 5).proposalProxyModel.map (fun p => p.startDate)
        = some { date := thisYear, msecs := 0 } ∧
      thisMonth.isValid = true ∧ lastMonth.isValid = true ∧ thisYear.isValid = true ∧
      thisMonth.day = 1 ∧ lastMonth.day = 1 ∧ thisYear.day = 1 ∧
      thisMonth.year = current.year ∧ thisMonth.month = current.month ∧
      QDateTime.lt { date := lastMonth, msecs := 0 } { date := thisMonth, msecs := 0 } ∧
      lastMonth.month = (if current.month = 1 then 12 else current.month - 1) ∧
      lastMonth.year =
        (if current.month = 1 then (if current.year = 1 then -1 else current.year - 1)
          else current.year) ∧
      thisYear.year = current.year ∧ thisYear.month = 1 ∧
      QDateTime.le { date := thisYear, msecs := 0 } { date := thisMonth, msecs := 0 }) := by
  obtain ⟨_, s1, s2, s3, s4, s5, _⟩ := chooseStartDate_bound K self current proxy h
  obtain ⟨hy, hm0, hm1, etm, ety, elm, htm1, htm2, hty1, hty2, hlm1, hlm2⟩ :=
    QDate.month_presets current hv hlo
  obtain ⟨hw1, hw2, hw3⟩ := QDate.startOfWeek_spec current hv (by omega)
  have hr := (QDate.isValid_iff current).mp hv
  obtain ⟨y2, hy2⟩ : ∃ y2 : Int, y2 =
      (if current.month = 1 then (if current.year = 1 then -1 else current.year - 1)
        else current.year) := ⟨_, rfl⟩
  obtain ⟨m2, hm2⟩ : ∃ m2 : Int, m2 = (if current.month = 1 then 12 else current.month - 1) :=
    ⟨_, rfl⟩
  rw [← hy2, ← hm2] at elm hlm1 hlm2
  have hy2n : y2 ≠ 0 := by rw [hy2]; split <;> [split <;> omega; exact hy]
  have hm2r : 1 ≤ m2 ∧ m2 ≤ 12 := by rw [hm2]; split <;> omega
  have ftm := QDate.fields_of_first current.year current.month hy hm0 hm1 (by omega) (by omega)
  have fty := QDate.fields_of_first current.year 1 hy (by omega) (by omega) (by omega) (by omega)
  have flm := QDate.fields_of_first y2 m2 hy2n hm2r.1 hm2r.2 (by omega) (by omega)
  rw [etm] at s3
  rw [elm] at s4
  rw [ety] at s5
  constructor
  · intro i hi0 hi1
    have hi : i = 1 ∨ i = 2 ∨ i = 3 ∨ i = 4 ∨ i = 5 := by omega
    rcases hi with hi | hi | hi | hi | hi <;> subst hi
    · exact ⟨_, s1, Or.inr ⟨rfl, le_refl _⟩⟩
    · refine ⟨_, s2, ?_⟩
      unfold QDateTime.le QDateTime.ofDate
      dsimp only
      omega
    · refine ⟨_, s3, ?_⟩
      unfold QDateTime.le QDateTime.ofDate
      dsimp only
      omega
    · refine ⟨_, s4, ?_⟩
      unfold QDateTime.le QDateTime.ofDate
      dsimp only
      omega
    · refine ⟨_, s5, ?_⟩
      unfold QDateTime.le QDateTime.ofDate
      dsimp only
      omega
  · refine ⟨_, _, _, s3, s4, s5, ?_, ?_, ?_, ftm.2.2, flm.2.2, fty.2.2, ftm.1, ftm.2.1, ?_,
      hm2 ▸ flm.2.1, hy2 ▸ flm.1, fty.1, fty.2.1, ?_⟩
    · rw [QDate.isValid_iff]; dsimp only; omega
    · rw [QDate.isValid_iff]; dsimp only; omega
    · rw [QDate.isValid_iff]; dsimp only; omega
    · unfold QDateTime.lt; dsimp only; omega
    · unfold QDateTime.le; dsimp only; omega

theorem chooseStartDate_presets_witness :
    (∀ i : Int, 1 ≤ i → i ≤ 5 →
      ∃ t : QDateTime,
        (chooseStartDate sampleDecls samplePanel sampleToday i).proposalProxyModel.map
            (fun p => p.startDate) = some t ∧
        QDateTime.le t (QDateTime.ofDate sampleToday)) ∧
    (∃ thisMonth lastMonth thisYear : QDate,
      (chooseStartDate sampleDecls samplePanel sampleToday 3).proposalProxyModel.map
          (fun p => p.startDate) = some { date := thisMonth, msecs := 0 } ∧
      (chooseStartDate sampleDecls samplePanel sampleToday 4).proposalProxyModel.map
          (fun p => p.startDate) = some { date := lastMonth, msecs := 0 } ∧
      (chooseStartDate sampleDecls samplePanel sampleToday 5).proposalProxyModel.map
          (fun p => p.startDate) = some { date := thisYear, msecs := 0 } ∧
      thisMonth.isValid = true ∧ lastMonth.isValid = true ∧ thisYear.isValid = true ∧
      thisMonth.day = 1 ∧ lastMonth.day = 1 ∧ thisYear.day = 1 ∧
      thisMonth.year = sampleToday.year ∧ thisMonth.month = sampleToday.month ∧
      QDateTime.lt { date := lastMonth, msecs := 0 } { date := thisMonth, msecs := 0 } ∧
      lastMonth.month = (if sampleToday.month = 1 then 12 else sampleToday.month - 1) ∧
      lastMonth.year =
        (if sampleToday.month = 1 then (if sampleToday.year = 1 then -1 else sampleToday.year - 1)
          else sampleToday.year) ∧
      thisYear.year = sampleToday.year ∧ thisYear.month = 1 ∧
      QDateTime.le { date := thisYear, msecs := 0 } { date := thisMonth, msecs := 0 }) :=
  chooseStartDate_presets sampleDecls samplePanel sampleToday sampleProxy
    (by decide) (by decide) (by decide)

/-- The sample presets evaluated on Wednesday 8 May 2024: Monday 6 May, 1 May,
1 April and 1 January 2024. -/
theorem sample_presets :
    (chooseStartDate sampleDecls samplePanel sampleToday 2).proposalProxyModel.map
        (fun p => p.startDate) = some (QDateTime.ofDate (QDate.ofYMD 2024 5 6)) ∧
    (chooseStartDate sampleDecls samplePanel sampleToday 3).proposalProxyModel.map
        (fun p => p.startDate) = some (QDateTime.ofDate (QDate.ofYMD 2024 5 1)) ∧
    (chooseStartDate sampleDecls samplePanel sampleToday 4).proposalProxyModel.map
        (fun p => p.startDate) = some (QDateTime.ofDate (QDate.ofYMD 2024 4 1)) ∧
    (chooseStartDate sampleDecls samplePanel sampleToday 5).proposalProxyModel.map
        (fun p => p.startDate) = some (QDateTime.ofDate (QDate.ofYMD 2024 1 1)) := by
  decide

/-! ## Claims about the filter fields -/

namespace QString

theorem digitChar_props (d : Nat) (h : d < 10) :
    digitValue (Nat.digitChar d) = some d ∧ isSpace (Nat.digitChar d) = false ∧
      Nat.digitChar d ≠ '-' ∧ Nat.digitChar d ≠ '+' := by
  interval_cases d <;> decide

theorem toDigitsCore_spec (fuel : Nat) :
    ∀ (n : Nat) (ds : List Char), n < fuel →
      digitsValue (Nat.toDigitsCore 10 fuel n ds) 0 = digitsValue ds n ∧
      (∃ c cs, Nat.toDigitsCore 10 fuel n ds = c :: cs ∧ c ≠ '-' ∧ c ≠ '+') ∧
      ((∀ c ∈ ds, isSpace c = false) →
        ∀ c ∈ Nat.toDigitsCore 10 fuel n ds, isSpace c = false) := by
  induction fuel with
  | zero => intro n ds h; omega
  | succ fuel ih =>
    intro n ds h
    obtain ⟨hv, hs, hm, hp⟩ := digitChar_props (n % 10) (Nat.mod_lt _ (by norm_num))
    unfold Nat.toDigitsCore
    by_cases h0 : n / 10 = 0
    · simp only [h0, if_true]
      have hn : n % 10 = n := by omega
      refine ⟨?_, ⟨_, _, rfl, hm, hp⟩, ?_⟩
      · simp only [digitsValue, hv, Nat.mul_zero, Nat.zero_add]
        rw [hn]
      · intro hds c hc
        rcases List.mem_cons.mp hc with hc | hc
        · rw [hc]; exact hs
        · exact hds c hc
    · simp only [h0, if_false]
      obtain ⟨i1, i2, i3⟩ := ih (n / 10) (Nat.digitChar (n % 10) :: ds) (by omega)
      refine ⟨?_, i2, ?_⟩
      · rw [i1]
        simp only [digitsValue, hv]
        congr 1
        omega
      · intro hds
        apply i3
        intro c hc
        rcases List.mem_cons.mp hc with hc | hc
        · rw [hc]; exact hs
        · exact hds c hc

theorem trimmed_of_no_space (l : List Char) (h : ∀ c ∈ l, isSpace c = false) :
    trimmed l = l := by
  have drop : ∀ l : List Char, (∀ c ∈ l, isSpace c = false) → l.dropWhile isSpace = l := by
    intro l hl
    cases l with
    | nil => rfl
    | cons c cs => simp [List.dropWhile, hl c (List.mem_cons_self _ _)]
  unfold trimmed
  rw [drop l h, drop l.reverse (fun c hc => h c (List.mem_reverse.mp hc)), List.reverse_reverse]

/-- `QString::toInt` reads back the decimal text of any integer that fits an
`int`. -/
theorem toInt_decimalText (n : Int) (h0 : INT_MIN ≤ n) (h1 : n ≤ INT_MAX) :
    toInt (decimalText n) = n ∧ decimalText n ≠ "" := by
  obtain ⟨hv, ⟨c, cs, hcs, hm, hp⟩, hsp⟩ :=
    toDigitsCore_spec (n.natAbs + 1) n.natAbs [] (by omega)
  have hsp' := hsp (by simp)
  have hminus : isSpace '-' = false := by decide
  change digitsValue (Nat.toDigits 10 n.natAbs) 0 = _ at hv
  change Nat.toDigits 10 n.natAbs = _ at hcs
  change ∀ c ∈ Nat.toDigits 10 n.natAbs, _ at hsp'
  simp only [digitsValue] at hv
  by_cases hneg : n < 0
  · have htxt : (decimalText n).toList = '-' :: Nat.toDigits 10 n.natAbs := by
      simp [decimalText, hneg]
    constructor
    · unfold toInt parseInteger
      rw [htxt, trimmed_of_no_space]
      · simp only [if_true]
        rw [hcs] at hv ⊢
        have hn : -|n| = n := by rw [abs_of_neg hneg]; omega
        simp [hv, hn, h0, h1]
      · intro c hc
        rcases List.mem_cons.mp hc with hc | hc
        · rw [hc]; exact hminus
        · exact hsp' c hc
    · intro he
      rw [he] at htxt
      simp at htxt
  · have htxt : (decimalText n).toList = Nat.toDigits 10 n.natAbs := by
      simp [decimalText, hneg]
    constructor
    · unfold toInt parseInteger
      rw [htxt, trimmed_of_no_space _ hsp']
      rw [hcs] at hv ⊢
      have hn : |n| = n := abs_of_nonneg (by omega)
      simp [hm, hp, hv, hn, h0, h1]
    · intro he
      rw [he, hcs] at htxt
      simp at htxt

end QString

/-- Sample decimal texts. -/
theorem decimalText_samples :
    decimalText (-42) = "-42" ∧ decimalText 0 = "0" ∧ decimalText 100 = "100" := by
  decide

/-- Clearing a filter field sets its threshold to the lower bound of the
validator installed on the field (lines 65, 95, 103, 112, 120). -/
theorem changed_fields_cleared (self : ProposalList) (proxy : ProposalFilterProxy)
    (h : self.proposalProxyModel = some proxy) :
    (self.changedPercentage "").proposalProxyModel.map (fun p => p.nMinPercentage)
      = some (-100) ∧
    (self.changedAbsoluteYesVotes "").proposalProxyModel.map (fun p => p.nMinAbsoluteYesVotes)
      = some INT_MIN ∧
    (self.changedYesVotes "").proposalProxyModel.map (fun p => p.nMinYesVotes) = some 0 ∧
    (self.changedNoVotes "").proposalProxyModel.map (fun p => p.nMinNoVotes) = some 0 ∧
    (self.changedAmount "").proposalProxyModel.map (fun p => p.nMinAmount) = some 0 := by
  have h0 : QString.toInt "" = 0 := by decide
  simp [changedPercentage, changedAbsoluteYesVotes, changedYesVotes, changedNoVotes,
    changedAmount, h, h0]

/-- The decimal text of an integer that fits an `int` sets the threshold of
each of the five filter fields to that integer. -/
theorem changed_fields_integer (self : ProposalList) (proxy : ProposalFilterProxy)
    (h : self.proposalProxyModel = some proxy) (n : Int) (h0 : INT_MIN ≤ n)
    (h1 : n ≤ INT_MAX) :
    (self.changedPercentage (decimalText n)).proposalProxyModel.map
        (fun p => p.nMinPercentage) = some n ∧
    (self.changedAbsoluteYesVotes (decimalText n)).proposalProxyModel.map
        (fun p => p.nMinAbsoluteYesVotes) = some n ∧
    (self.changedYesVotes (decimalText n)).proposalProxyModel.map
        (fun p => p.nMinYesVotes) = some n ∧
    (self.changedNoVotes (decimalText n)).proposalProxyModel.map
        (fun p => p.nMinNoVotes) = some n ∧
    (self.changedAmount (decimalText n)).proposalProxyModel.map
        (fun p => p.nMinAmount) = some n := by
  obtain ⟨hv, hne⟩ := QString.toInt_decimalText n h0 h1
  simp [changedPercentage, changedAbsoluteYesVotes, changedYesVotes, changedNoVotes,
    changedAmount, h, hv, hne]

/-- C9 (the code departs from it): the amount field accepts the decimal integer
text "3000000000", which lies within the range 0 .. 1e20 of its validator, but
`changedAmount` sets the minimum amount to 0, not to 3000000000, because
`toInt()` fails on a number that does not fit an `int`. -/
theorem changedAmount_large_integer :
    (samplePanel.changedAmount "3000000000").proposalProxyModel.map (fun p => p.nMinAmount)
      = some 0 ∧
    (samplePanel.changedAmount "2147483647").proposalProxyModel.map (fun p => p.nMinAmount)
      = some 2147483647 ∧
    (samplePanel.changedAmount "2147483648").proposalProxyModel.map (fun p => p.nMinAmount)
      = some 0 := by
  decide



/-! ## Claims about the amount field (continued) -/

namespace QString

/-- A decimal digit is neither white space nor a sign nor the decimal point. -/
theorem digitValue_some (c : Char) (v : Nat) (h : digitValue c = some v) :
    isSpace c = false ∧ c ≠ '-' ∧ c ≠ '+' ∧ c ≠ '.' := by
  unfold digitValue at h
  split at h
  · rename_i hc
    refine ⟨?_, ?_, ?_, ?_⟩
    · simp [isSpace]; omega
    · intro e; rw [e] at hc; revert hc; decide
    · intro e; rw [e] at hc; revert hc; decide
    · intro e; rw [e] at hc; revert hc; decide
  · cases h

/-- A run of characters has a value only when each of them is a digit. -/
theorem digitsValue_some (l : List Char) :
    ∀ (acc v : Nat), digitsValue l acc = some v → ∀ c ∈ l, ∃ d, digitValue c = some d := by
  induction l with
  | nil => intro _ _ _ c hc; cases hc
  | cons x rest ih =>
    intro acc v h c hc
    unfold digitsValue at h
    cases hx : digitValue x with
    | none => rw [hx] at h; cases h
    | some d =>
      rw [hx] at h
      rcases List.mem_cons.mp hc with e | e
      · rw [e]; exact ⟨d, hx⟩
      · exact ih _ _ h c e

/-- A run of characters that holds the decimal point has no value. -/
theorem digitsValue_point (l : List Char) (h : '.' ∈ l) (acc : Nat) :
    digitsValue l acc = none := by
  cases hv : digitsValue l acc with
  | none => rfl
  | some v =>
    obtain ⟨d, hd⟩ := digitsValue_some l acc v hv '.' h
    have hp : digitValue '.' = none := by decide
    rw [hp] at hd
    cases hd

/-- Trimming keeps every character that is not white space. -/
theorem mem_trimmed (l : List Char) (c : Char) (hc : c ∈ l) (hs : isSpace c = false) :
    c ∈ trimmed l := by
  have keep : ∀ l : List Char, c ∈ l → c ∈ l.dropWhile isSpace := by
    intro l
    induction l with
    | nil => intro h; cases h
    | cons x rest ih =>
      intro h
      rw [List.dropWhile_cons]
      split
      · rename_i hx
        rcases List.mem_cons.mp h with e | e
        · rw [← e, hs] at hx; cases hx
        · exact ih e
      · exact h
  unfold trimmed
  exact List.mem_reverse.mpr (keep _ (List.mem_reverse.mpr (keep l hc)))

/-- `QString::toInt` fails on every text with a decimal point. -/
theorem toInt_point (text : String) (h : '.' ∈ text.toList) : toInt text = 0 := by
  have hm := mem_trimmed text.toList '.' h (by decide)
  unfold toInt parseInteger
  cases ht : trimmed text.toList with
  | nil => rfl
  | cons c cs =>
    rw [ht] at hm
    simp only
    by_cases h1 : c = '-'
    · have hcs : '.' ∈ cs := by
        rcases List.mem_cons.mp hm with e | e
        · rw [h1] at e; exact absurd e (by decide)
        · exact e
      simp [h1, digitsValue_point cs hcs 0]
    · by_cases h2 : c = '+'
      · have hcs : '.' ∈ cs := by
          rcases List.mem_cons.mp hm with e | e
          · rw [h2] at e; exact absurd e (by decide)
          · exact e
        simp [h2, digitsValue_point cs hcs 0]
      · simp [h1, h2, digitsValue_point (c :: cs) hm 0]

/-- `QString::toInt` on a run of at least one digit: its value when that fits
an `int`, `0` otherwise. -/
theorem toInt_digits (text : String) (w : Nat) (hne : text.toList ≠ [])
    (hv : digitsValue text.toList 0 = some w) :
    toInt text = if (w : Int) ≤ INT_MAX then (w : Int) else 0 := by
  have hall := digitsValue_some text.toList 0 w hv
  have hsp : ∀ c ∈ text.toList, isSpace c = false := by
    intro c hc
    obtain ⟨d, hd⟩ := hall c hc
    exact (digitValue_some c d hd).1
  unfold toInt parseInteger
  rw [trimmed_of_no_space _ hsp]
  cases hl : text.toList with
  | nil => exact absurd hl hne
  | cons c cs =>
    obtain ⟨d, hd⟩ := hall c (by rw [hl]; exact List.mem_cons_self _ _)
    obtain ⟨_, hm, hp, _⟩ := digitValue_some c d hd
    rw [hl] at hv
    have h0 : INT_MIN ≤ (w : Int) := by unfold INT_MIN; omega
    simp [hm, hp, hv, h0]

end QString

/-- An amount text is its whole digits followed by its tail, and a tail that is
not empty starts at the decimal point. -/
theorem amount_text_parts (text : String) :
    text.toList = amountWholeDigits text ++ amountTail text ∧
      (amountTail text ≠ [] → '.' ∈ text.toList) := by
  have point : ∀ l : List Char, l.dropWhile (fun c => c != '.') ≠ [] → '.' ∈ l := by
    intro l hne
    have hmem : (l.dropWhile (fun c => c != '.')).head hne ∈ l :=
      List.dropWhile_subset _ (List.head_mem hne)
    have hhead := List.head_dropWhile_not (fun c => c != '.') l hne
    simp at hhead
    rw [hhead] at hmem
    exact hmem
  unfold amountWholeDigits amountTail
  exact ⟨(List.takeWhile_append_dropWhile _ _).symm, point _⟩

/-- What `changedAmount` makes of a text whose whole digits denote `w`: the
minimum amount is `w` when the text has no decimal point and `w` fits an `int`,
and `0` in every other case. -/
theorem changedAmount_decimal (self : ProposalList) (proxy : ProposalFilterProxy)
    (h : self.proposalProxyModel = some proxy) (text : String) (w : Nat)
    (hw : amountIntegerPart text = some w) :
    (self.changedAmount text).proposalProxyModel.map (fun p => p.nMinAmount)
      = some (if amountTail text = [] ∧ (w : Int) ≤ INT_MAX then (w : Int) else 0) := by
  obtain ⟨hparts, hpoint⟩ := amount_text_parts text
  have htoInt : QString.toInt text
      = if amountTail text = [] ∧ (w : Int) ≤ INT_MAX then (w : Int) else 0 := by
    unfold amountIntegerPart at hw
    by_cases ht : amountTail text = []
    · rw [ht, List.append_nil] at hparts
      split at hw
      · cases hw
      · rename_i hne
        rw [← hparts] at hw hne
        rw [QString.toInt_digits text w (by simpa using hne) hw]
        simp [ht]
    · rw [QString.toInt_point text (hpoint ht)]
      simp [ht]
  simp [changedAmount, h, htoInt]

/-- The minimum amount `changedAmount` sets equals the integer part of the
text exactly when the text has no decimal point and its value fits an `int`, or
when the integer part is 0. -/
theorem changedAmount_integer_part_iff (self : ProposalList) (proxy : ProposalFilterProxy)
    (h : self.proposalProxyModel = some proxy) (text : String) (w : Nat)
    (hw : amountIntegerPart text = some w) :
    (self.changedAmount text).proposalProxyModel.map (fun p => p.nMinAmount) = some (w : Int)
      ↔ ((amountTail text = [] ∧ (w : Int) ≤ INT_MAX) ∨ w = 0) := by
  rw [changedAmount_decimal self proxy h text w hw]
  by_cases hc : amountTail text = [] ∧ (w : Int) ≤ INT_MAX
  · simp [hc]
  · rw [if_neg hc]
    constructor
    · intro e
      right
      have e2 : (0 : Int) = (w : Int) := Option.some.inj e
      omega
    · intro e
      rcases e with e | e
      · exact absurd e hc
      · rw [e]; rfl

/-- C11 (the code departs from it): the amount field accepts the texts "1.5" and
"12.75", whose integer parts are 1 and 12, but `changedAmount` sets the minimum
amount to 0 for both, because `toInt()` fails on a text with a decimal point. -/
theorem changedAmount_fraction :
    acceptedAmount "1.5" = true ∧ amountIntegerPart "1.5" = some 1 ∧
    (samplePanel.changedAmount "1.5").proposalProxyModel.map (fun p => p.nMinAmount)
      = some 0 ∧
    acceptedAmount "12.75" = true ∧ amountIntegerPart "12.75" = some 12 ∧
    (samplePanel.changedAmount "12.75").proposalProxyModel.map (fun p => p.nMinAmount)
      = some 0 := by
  decide

/-! ## Claims about the countdown label -/

/-- C++ division by 60: the floor quotient of a non-negative number, and not
above zero for a negative one. -/
theorem cdiv_sixty (s : Int) :
    (0 ≤ s → cdiv s 60 = s / 60) ∧ (s < 0 → cdiv s 60 ≤ 0) := by
  unfold cdiv
  constructor
  · intro h
    exact Int.tdiv_eq_ediv h (by norm_num)
  · intro h
    obtain ⟨n, hn⟩ : ∃ n : Int, s = -n := ⟨-s, by omega⟩
    rw [hn, Int.neg_tdiv, Int.tdiv_eq_ediv (by omega) (by norm_num)]
    omega

/-- The label `refreshProposals` leaves when it does not refresh is made of
`countdownNumber` and `countdownUnit` of the seconds remaining. -/
theorem refreshProposals_label (K : Decls) (self : ProposalList) (t1 t2 : Int)
    (h : secondsRemaining K self t1 > 0) :
    (self.refreshProposals K false t1 t2).secondsLabel
      = "List will be updated in "
          ++ QString.number (countdownNumber (secondsRemaining K self t1))
          ++ " " ++ countdownUnit (secondsRemaining K self t1) := by
  unfold secondsRemaining at h
  unfold refreshProposals
  simp only [h, and_self, if_true]
  unfold countdownNumber countdownUnit secondsRemaining
  split <;> rfl

/-- From 61 to 119 seconds the number shown is the minutes, `secondsRemaining /
60 = 1`, and not the seconds, while the unit shown is "second(s)". -/
theorem countdown_mismatch (s : Int) (h0 : 61 ≤ s) (h1 : s ≤ 119) :
    countdownNumber s = cdiv s 60 ∧ countdownNumber s = 1 ∧ countdownNumber s ≠ s ∧
      countdownUnit s = "second(s)" := by
  have hd := (cdiv_sixty s).1 (by omega)
  have hq : s / 60 = 1 := by omega
  unfold countdownNumber countdownUnit
  rw [hd, hq]
  have hs : s > 60 := by omega
  simp [hs]
  omega

/-- Outside 61..119 seconds number and unit agree: either minutes with
"minute(s)" (from 120 seconds on) or seconds with "second(s)" (up to 60). -/
theorem countdown_agrees (s : Int) (h : s ≤ 60 ∨ 120 ≤ s) :
    (120 ≤ s ∧ countdownNumber s = cdiv s 60 ∧ countdownUnit s = "minute(s)") ∨
      (s ≤ 60 ∧ countdownNumber s = s ∧ countdownUnit s = "second(s)") := by
  unfold countdownNumber countdownUnit
  rcases h with h | h
  · right
    have hq : ¬ (cdiv s 60 > 1) := by
      by_cases hs : 0 ≤ s
      · rw [(cdiv_sixty s).1 hs]; omega
      · have := (cdiv_sixty s).2 (by omega); omega
    have hs : ¬ (s > 60) := by omega
    simp [hq, hs, h]
  · left
    have hq : cdiv s 60 > 1 := by
      rw [(cdiv_sixty s).1 (by omega)]; omega
    have hs : s > 60 := by omega
    simp [hq, hs, h]

/-- Whenever 61 to 119 seconds remain, an unforced `refreshProposals` leaves the
label "List will be updated in 1 second(s)". -/
theorem refreshProposals_label_mismatch (K : Decls) (self : ProposalList) (t1 t2 : Int)
    (h0 : 61 ≤ secondsRemaining K self t1) (h1 : secondsRemaining K self t1 ≤ 119) :
    (self.refreshProposals K false t1 t2).secondsLabel
      = "List will be updated in 1 second(s)" := by
  obtain ⟨_, hn, _, hu⟩ := countdown_mismatch (secondsRemaining K self t1) h0 h1
  rw [refreshProposals_label K self t1 t2 (by omega), hn, hu]
  decide

/-- C12 (the code departs from it): with a refresh period of 300 seconds, 210
seconds after the last update 90 seconds remain, and an unforced
`refreshProposals` leaves the label "List will be updated in 1 second(s)": the
number shown is `secondsRemaining / 60` while the unit shown is "second(s)". -/
theorem refreshProposals_label_one_second :
    secondsRemaining sampleDeclsFiveMinutes samplePanel 1715126610 = 90 ∧
    (samplePanel.refreshProposals sampleDeclsFiveMinutes false 1715126610
        1715126610).secondsLabel = "List will be updated in 1 second(s)" ∧
    countdownNumber 90 = cdiv 90 60 ∧ countdownNumber 90 ≠ 90 ∧
    countdownUnit 90 = "second(s)" := by
  decide

end ProposalPanel
